import Mathlib

/-!
Verification development for the monitoring bot's adaptive page-action engine
(`src/ai_detector.py`, `src/form_filler.py`, `src/monitor.py`, `src/utils.py`).

The Python code is shallowly embedded:
* strings are `String` / `List Char`; Python floats are modelled as exact
  non-negative fractions (`Frac`), compared by value;
* the live DOM is a static tree of `Node`s; Selenium element handles are
  `Elem`s (a node plus its ancestor chain, root first, which is the order
  Selenium returns for the `ancestor::*` axis);
* clicking is modelled as an event log: a click on a node succeeds exactly
  when the node's modelled click outcome is error-free, and every attempt is
  recorded as a `Click` carrying the Python-side `desc` tag used at the call
  site.  Navigation does not mutate the modelled document (the page is treated
  as static for the duration of one call), and sleeps / highlights are no-ops;
* `difflib.SequenceMatcher` (used by `similar`) is embedded in full, including
  the `autojunk` popularity purge and the four post-DP extension loops.
-/


/-! ## Kernel-computable string and fraction helpers

Core `String` functions (`trim`, `replace`, `toLower`, ...) and `Rat`
arithmetic are defined by well-founded recursion in core/Mathlib and do not
reduce inside the kernel, so the embedding uses structural re-implementations
on `List Char`, and scores are non-negative fractions compared by
cross-multiplication — exactly how the Python floats (which here are always
ratios of small integers) compare by value. -/

/-- A non-negative fraction `num/den`; never built with `den = 0`. -/
structure Frac where
  num : Nat
  den : Nat
deriving DecidableEq, Repr

/-- Value equality of fractions (float `==`). -/
def Frac.valEq (x y : Frac) : Bool := x.num * y.den == y.num * x.den

/-- Strict value order (float `<`). -/
def Frac.lt (x y : Frac) : Bool := x.num * y.den < y.num * x.den

/-- Value order (float `<=`). -/
def Frac.le (x y : Frac) : Bool := x.num * y.den ≤ y.num * x.den

/-- Python `str.lower` on the character list (ASCII-faithful). -/
def lowerL (l : List Char) : List Char := l.map Char.toLower

def lowerS (s : String) : String := ⟨lowerL s.data⟩

/-- Python `str.strip()`: drop whitespace from both ends. -/
def trimL (l : List Char) : List Char :=
  ((l.dropWhile Char.isWhitespace).reverse.dropWhile Char.isWhitespace).reverse

def trimS (s : String) : String := ⟨trimL s.data⟩

def takeS (s : String) (n : Nat) : String := ⟨s.data.take n⟩

def dropS (s : String) (n : Nat) : String := ⟨s.data.drop n⟩

/-! ## String helpers (Python `in`, `re.search` with literal alternations and
word boundaries) -/

/-- `isPrefList p l`: `p` is a prefix of `l`. -/
def isPrefList : List Char → List Char → Bool
  | [], _ => true
  | _ :: _, [] => false
  | c :: cs, d :: ds => c == d && isPrefList cs ds

/-- `isSubList p l`: `p` occurs as a contiguous sublist of `l`
(Python `p in l`; the empty pattern always matches). -/
def isSubList (pat : List Char) : List Char → Bool
  | [] => pat.isEmpty
  | c :: rest => isPrefList pat (c :: rest) || isSubList pat rest

/-- Python `pat in hay` on strings. -/
def containsSub (hay pat : String) : Bool :=
  isSubList pat.data hay.data

/-- Python regex `\w` (ASCII fragment): letters, digits, underscore. -/
def isWordChar (c : Char) : Bool :=
  c.isAlphanum || c == '_'

/-- Whether the character at position `p` of `hay` is a word character
(out-of-range counts as non-word, like a string edge). -/
def wCharAt (hay : List Char) (p : Nat) : Bool :=
  isWordChar (hay.getD p (Char.ofNat 0)) && p < hay.length

/-- A `\b` word boundary sits at position `p` iff exactly one of the two
surrounding characters is a word character. -/
def boundaryAt (hay : List Char) (p : Nat) : Bool :=
  (if p = 0 then false else wCharAt hay (p - 1)) != wCharAt hay p

/-- `re.search(r"\b" + re.escape(pat) + r"\b", hay)` for a literal `pat`. -/
def wbSearch (pat hay : String) : Bool :=
  (List.range (hay.data.length + 1)).any (fun i =>
    isPrefList pat.data (hay.data.drop i) && boundaryAt hay.data i
      && boundaryAt hay.data (i + pat.data.length))

/-- Python `str.startswith`. -/
def startsWithS (s pre : String) : Bool := isPrefList pre.data s.data

/-- Python whitespace `str.split` keeping empty pieces (the callers filter). -/
def splitWSAux : List Char → List Char → List String
  | [], acc => [⟨acc.reverse⟩]
  | c :: rest, acc =>
    if c.isWhitespace then ⟨acc.reverse⟩ :: splitWSAux rest []
    else splitWSAux rest (c :: acc)

def splitWS (s : String) : List String := splitWSAux s.data []

/-- One fuel step per input character; fuel `l.length` suffices because every
step consumes at least one character. -/
def replaceLAux (pat rep : List Char) : Nat → List Char → List Char
  | 0, l => l
  | _+1, [] => []
  | fuel+1, c :: rest =>
    if !pat.isEmpty && isPrefList pat (c :: rest) then
      rep ++ replaceLAux pat rep fuel ((c :: rest).drop pat.length)
    else c :: replaceLAux pat rep fuel rest

/-- Python `str.replace` (all occurrences, left to right, non-overlapping;
never called with an empty pattern). -/
def replaceS (s pat rep : String) : String :=
  ⟨replaceLAux pat.data rep.data s.data.length s.data⟩

namespace Difflib

/-- One matching block `(i, j, size)` as returned by
`SequenceMatcher.find_longest_match`. -/
structure Match3 where
  i : Nat
  j : Nat
  size : Nat
deriving DecidableEq, Repr

/-- Positions of character `c` in `b` (the `b2j` dict before the junk purge). -/
def posns (b : List Char) (c : Char) : List Nat :=
  (List.range b.length).filter (fun j => b.getD j ' ' == c)

/-- `b2j` lookup after the autojunk purge: when `len(b) >= 200`, characters
occurring more than `len(b) // 100 + 1` times are "popular" and removed. -/
def b2j (b : List Char) (c : Char) : List Nat :=
  if b.length ≥ 200 && decide ((posns b c).length > b.length / 100 + 1)
  then []
  else posns b c

/-- Inner loop of `find_longest_match`: one row `i`, iterating over the
column list `cols`; `oldj` is the previous row's `j2len`, the accumulated
function is `newj2len`. -/
def flmCols (i : Nat) (oldj : Nat → Nat) :
    List Nat → Match3 → (Nat → Nat) → Match3 × (Nat → Nat)
  | [], best, nj => (best, nj)
  | j :: rest, best, nj =>
    let k := (if j = 0 then 0 else oldj (j-1)) + 1
    let nj' : Nat → Nat := fun x => if x = j then k else nj x
    let best' := if best.size < k then ⟨i + 1 - k, j + 1 - k, k⟩ else best
    flmCols i oldj rest best' nj'

/-- Outer loop of `find_longest_match` over the rows of `a`. -/
def flmRows (a : List Char) (b2jf : Char → List Nat) (blo bhi : Nat) :
    List Nat → Match3 → (Nat → Nat) → Match3 × (Nat → Nat)
  | [], best, j2len => (best, j2len)
  | i :: rest, best, j2len =>
    let cols := ((b2jf (a.getD i ' ')).filter (fun j => blo ≤ j)).takeWhile (fun j => j < bhi)
    let st := flmCols i j2len cols best (fun _ => 0)
    flmRows a b2jf blo bhi rest st.1 st.2

/-- Backward extension loop (`while besti > alo and bestj > blo and
isbjunk(b[bestj-1]) == junkPhase and a[besti-1] == b[bestj-1]`). -/
def extBack (a b : List Char) (isbjunk : Char → Bool) (alo blo : Nat)
    (junkPhase : Bool) : Nat → Match3 → Match3
  | 0, m => m
  | fuel+1, m =>
    if alo < m.i && blo < m.j && (isbjunk (b.getD (m.j - 1) ' ') == junkPhase)
        && (a.getD (m.i - 1) ' ' == b.getD (m.j - 1) ' ') then
      extBack a b isbjunk alo blo junkPhase fuel ⟨m.i - 1, m.j - 1, m.size + 1⟩
    else m

/-- Forward extension loop (`while besti+bestsize < ahi and ...`). -/
def extFwd (a b : List Char) (isbjunk : Char → Bool) (ahi bhi : Nat)
    (junkPhase : Bool) : Nat → Match3 → Match3
  | 0, m => m
  | fuel+1, m =>
    if m.i + m.size < ahi && m.j + m.size < bhi
        && (isbjunk (b.getD (m.j + m.size) ' ') == junkPhase)
        && (a.getD (m.i + m.size) ' ' == b.getD (m.j + m.size) ' ') then
      extFwd a b isbjunk ahi bhi junkPhase fuel ⟨m.i, m.j, m.size + 1⟩
    else m

/-- `SequenceMatcher.find_longest_match` on the region
`a[alo:ahi] × b[blo:bhi]`.  With `isjunk=None` (as in `similar`) the junk set
`bjunk` is empty, so `isbjunk` is the constant-false predicate and the two
junk-phase extension loops never fire; they are nevertheless modelled. -/
def findLongestMatch (a b : List Char) (b2jf : Char → List Nat)
    (isbjunk : Char → Bool) (alo ahi blo bhi : Nat) : Match3 :=
  let st := flmRows a b2jf blo bhi (List.range' alo (ahi - alo)) ⟨alo, blo, 0⟩ (fun _ => 0)
  let fuel := a.length + b.length + 1
  let m1 := extBack a b isbjunk alo blo false fuel st.1
  let m2 := extFwd a b isbjunk ahi bhi false fuel m1
  let m3 := extBack a b isbjunk alo blo true fuel m2
  extFwd a b isbjunk ahi bhi true fuel m3

/-- Stack-driven region recursion of `get_matching_blocks`.  The Python code
keeps a list used as a stack (`queue.pop()` pops the end); the head of our
list is the top of that stack. -/
def gmbLoop (a b : List Char) (b2jf : Char → List Nat) (isbjunk : Char → Bool) :
    Nat → List (Nat × Nat × Nat × Nat) → List Match3 → List Match3
  | 0, _, acc => acc
  | _+1, [], acc => acc
  | fuel+1, (alo, ahi, blo, bhi) :: rest, acc =>
    let m := findLongestMatch a b b2jf isbjunk alo ahi blo bhi
    if m.size ≠ 0 then
      let st1 := if alo < m.i && blo < m.j then (alo, m.i, blo, m.j) :: rest else rest
      let st2 := if m.i + m.size < ahi && m.j + m.size < bhi
                 then (m.i + m.size, ahi, m.j + m.size, bhi) :: st1 else st1
      gmbLoop a b b2jf isbjunk fuel st2 (m :: acc)
    else gmbLoop a b b2jf isbjunk fuel rest acc

/-- Lexicographic comparison on match triples (Python tuple ordering used by
`matching_blocks.sort()`). -/
def leM (x y : Match3) : Bool :=
  x.i < y.i || (x.i == y.i && (x.j < y.j || (x.j == y.j && x.size ≤ y.size)))

/-- Insertion sort with `leM`; the sorted triples are pairwise distinct in
practice, so any correct sort yields the Python result. -/
def insertM (x : Match3) : List Match3 → List Match3
  | [] => [x]
  | y :: ys => if leM x y then x :: y :: ys else y :: insertM x ys

def sortM : List Match3 → List Match3
  | [] => []
  | x :: xs => insertM x (sortM xs)

/-- The adjacent-block merging pass at the end of `get_matching_blocks`. -/
def mergeAdj : Match3 → List Match3 → List Match3
  | cur, [] => if cur.size ≠ 0 then [cur] else []
  | cur, m :: rest =>
    if cur.i + cur.size = m.i && cur.j + cur.size = m.j then
      mergeAdj ⟨cur.i, cur.j, cur.size + m.size⟩ rest
    else if cur.size ≠ 0 then cur :: mergeAdj m rest
    else mergeAdj m rest

/-- `SequenceMatcher(None, a, b).get_matching_blocks()` (with the final
`(la, lb, 0)` sentinel). -/
def getMatchingBlocks (a b : List Char) : List Match3 :=
  let b2jf := b2j b
  let isbjunk : Char → Bool := fun _ => false
  let raw := gmbLoop a b b2jf isbjunk (2 * (a.length + b.length) + 4)
      [(0, a.length, 0, b.length)] []
  mergeAdj ⟨0, 0, 0⟩ (sortM raw) ++ [⟨a.length, b.length, 0⟩]

/-- `SequenceMatcher(None, a, b).ratio()`, as an exact fraction
`2*matches / (len(a)+len(b))` (or `1` on two empty sequences). -/
def ratioQ (a b : List Char) : Frac :=
  let nmatched : Nat := ((getMatchingBlocks a b).map (fun m => m.size)).sum
  let len : Nat := a.length + b.length
  if len ≠ 0 then ⟨2 * nmatched, len⟩ else ⟨1, 1⟩

/-- The column list scanned for row `i` of the self-comparison DP (the
`b2j` entry of `a[i]`, restricted to `[blo, bhi) = [0, n)`). -/
def colsOf (l : List Char) (i : Nat) : List Nat :=
  ((b2j l (l.getD i ' ')).filter (fun j => 0 ≤ j)).takeWhile (fun j => j < l.length)

/-- The `j2len` value the DP computes at row `i`, column `j`, for the
self-comparison `a = b = l`: length of the visible common run ending there. -/
def vis (l : List Char) : Nat → Nat → Nat
  | 0, j => if j ∈ colsOf l 0 then 1 else 0
  | i+1, j => if j ∈ colsOf l (i+1) then (if j = 0 then 0 else vis l i (j - 1)) + 1 else 0

/-- The `j2len` function *entering* row `r` (all zeros before the first row). -/
def visRow (l : List Char) : Nat → Nat → Nat
  | 0, _ => 0
  | r+1, x => vis l r x
end Difflib

/-- `ai_detector.similar`: case-insensitive similarity score between two
strings (`SequenceMatcher(None, a.lower(), b.lower()).ratio()`). -/
def similar (a b : String) : Frac :=
  Difflib.ratioQ (lowerL a.data) (lowerL b.data)

/-! ## DOM model

A `Node` is one element of the (static) page: tag, rendered text (`el.text`),
attributes (including `outerHTML` and `href` as the browser would report
them), visibility, and the modelled failure behaviour of reading its text and
of clicking it.  An `Elem` is a located element: the node together with its
ancestor chain, root first — the order in which Selenium's `find_elements`
returns the `ancestor::*` axis. -/

/-- Exception raised by `element.click()`:
`StaleElementReferenceException`, another `WebDriverException`, or any other
exception — `utils.safe_click` catches all three separately. -/
inductive ClickErr where
  | stale
  | webdriver
  | other
deriving DecidableEq, Repr

inductive Node where
  | mk (tag : String) (text : String) (attrs : List (String × String))
       (displayed : Bool) (textErr : Bool) (clickErr : Option ClickErr)
       (children : List Node)

def Node.tag : Node → String
  | .mk t _ _ _ _ _ _ => t

def Node.text : Node → String
  | .mk _ x _ _ _ _ _ => x

def Node.attrs : Node → List (String × String)
  | .mk _ _ a _ _ _ _ => a

def Node.displayed : Node → Bool
  | .mk _ _ _ d _ _ _ => d

def Node.textErr : Node → Bool
  | .mk _ _ _ _ te _ _ => te

def Node.clickErr : Node → Option ClickErr
  | .mk _ _ _ _ _ ce _ => ce

def Node.children : Node → List Node
  | .mk _ _ _ _ _ _ ch => ch

/-- `element.get_attribute(key)` (None when absent). -/
def getAttr (n : Node) (key : String) : Option String :=
  (n.attrs.find? (fun p => p.1 == key)).map (fun p => p.2)

/-- A located element: node plus ancestor chain (root first). -/
structure Elem where
  node : Node
  anc : List Node

mutual
/-- All proper descendants of a node, in document (preorder) order, each
with its full ancestor chain; `anc` is the chain of the node itself. -/
def descendNode (anc : List Node) : Node → List Elem
  | Node.mk t x a d te ce ch => descendList (anc ++ [Node.mk t x a d te ce ch]) ch

/-- Preorder traversal of a forest of siblings sharing ancestor chain `anc`. -/
def descendList (anc : List Node) : List Node → List Elem
  | [] => []
  | n :: ns => ⟨n, anc⟩ :: (descendNode anc n ++ descendList anc ns)
end

/-- The browser session for one page: the root element (the page body) and
the full-page markup snapshot `driver.page_source`. -/
structure Driver where
  root : Node
  pageSource : String

/-- Every element of the document (the root and all its descendants) in
document order — what `driver.find_elements(By.XPATH, "//...")` traverses. -/
def docElems (root : Node) : List Elem :=
  ⟨root, []⟩ :: descendNode [] root

/-- Subtree query `element.find_elements(By.XPATH, ".//...")`: proper
descendants of the element, document order. -/
def subtreeElems (e : Elem) : List Elem :=
  descendNode e.anc e.node

/-- One recorded click attempt: the target node, the `desc` tag passed to
`utils.safe_click` at the call site, and whether the click succeeded. -/
structure Click where
  node : Node
  desc : String
  ok : Bool

namespace Utils

/-- `utils.safe_click`: logs the element's text (which may itself raise) and
clicks; every exception path — stale element, WebDriver-level, or any other —
is caught and yields `False`.  Returns `True` only when both the text read and
the click completed without raising. -/
def safe_click (n : Node) : Bool :=
  !n.textErr && n.clickErr.isNone

/-- `utils.safe_get_text`: stripped element text, or `""` on any exception. -/
def safe_get_text (n : Node) : String :=
  if n.textErr then "" else trimS n.text

end Utils

open Utils

/-- A click attempt on `n` recorded with its call-site `desc`. -/
def mkClick (n : Node) (desc : String) : Click :=
  ⟨n, desc, safe_click n⟩

namespace FormFiller

/-- `form_filler._normalize_expiry`: strip, drop spaces, turn `-` and `.`
into `/`, and split a bare 4-digit `MMYY` into `MM/YY`. -/
def _normalize_expiry (val : String) : String :=
  let v := replaceS (replaceS (replaceS (trimS val) " " "") "-" "/") "." "/"
  if v.data.length = 4 && v.data.all Char.isDigit then
    takeS v 2 ++ "/" ++ dropS v 2
  else if v.data.length = 5 || v.data.length = 7 then v
  else v

end FormFiller

namespace AiDetector

/-! ## Settings

`settings` is an optional Python dict; `Option Settings` mirrors `None` vs a
dict, and `isEmptyDict` mirrors the falsiness of an empty dict (the code
branches on `if settings` in several places).  Only the semantically relevant
keys are modelled; keys that merely set sleep durations are omitted because
sleeps are no-ops in the embedding. -/

structure Settings where
  max_scrolls : Option Nat
  min_match_score : Option Frac
  dismiss_banners : Option Bool
  allow_global_cta_when_name_found : Option Bool
  allow_global_cta_always : Option Bool
  select_size_before_global : Option Bool

def Settings.empty : Settings := ⟨none, none, none, none, none, none⟩

/-- Python truthiness of the settings dict: an empty dict is falsy. -/
def Settings.isEmptyDict (s : Settings) : Bool :=
  s.max_scrolls.isNone && s.min_match_score.isNone && s.dismiss_banners.isNone
    && s.allow_global_cta_when_name_found.isNone && s.allow_global_cta_always.isNone
    && s.select_size_before_global.isNone

/-- `settings.get(key, dflt) if settings else dflt`. -/
def getIfTruthy {α : Type} (o : Option Settings) (f : Settings → Option α) (dflt : α) : α :=
  match o with
  | none => dflt
  | some s => if s.isEmptyDict then dflt else (f s).getD dflt

/-- `(settings or {}).get(key, dflt)`. -/
def getOrEmpty {α : Type} (o : Option Settings) (f : Settings → Option α) (dflt : α) : α :=
  match o with
  | none => dflt
  | some s => (f s).getD dflt

/-- `settings and settings.get("dismiss_banners") is False`. -/
def bannersOff : Option Settings → Bool
  | none => false
  | some s =>
    !s.isEmptyDict && (match s.dismiss_banners with | some false => true | _ => false)

/-! ## Candidate extraction and CTA search -/

/-- `extract_candidate_cards(driver, limit=400)`: product-like blocks
(`div`/`article`/`section`/`li` with non-blank content) whose stripped text is
non-empty and which contain an image or a multi-line text body.
NOTE: the Python body never reads `limit`; the parameter is accepted here,
unused, exactly as in the source. -/
def extract_candidate_cards (d : Driver) (limit : Nat) : List (Elem × String) :=
  let els := (descendNode [] d.root).filter (fun e =>
    (e.node.tag == "div" || e.node.tag == "article" || e.node.tag == "section"
      || e.node.tag == "li") && !(trimS e.node.text == ""))
  els.filterMap (fun el =>
    let text := safe_get_text el.node
    if text == "" then none
    else
      let imgs := (subtreeElems el).filter (fun i => i.node.tag == "img")
      if !imgs.isEmpty || containsSub text "\n" then some (el, text) else none)

/-- Literal alternation searched by `find_buy_button_in`. -/
def buyBtnPatterns : List String :=
  ["add to bag", "add to cart", "add to basket", "buy now", "buy", "shop now",
   "checkout", "purchase"]

/-- `find_buy_button_in(element)`: first descendant button/link whose text
matches a buy pattern, else the first displayed one. -/
def find_buy_button_in (el : Elem) : Option Elem :=
  let buttons := (subtreeElems el).filter (fun b =>
    b.node.tag == "button" || b.node.tag == "a")
  match buttons.find? (fun b =>
      buyBtnPatterns.any (fun p => containsSub (lowerS (safe_get_text b.node)) p)) with
  | some b => some b
  | none => buttons.find? (fun b => b.node.displayed)

/-- `find_buy_button_near(driver, element, max_ancestors=3)`: Selenium
returns `ancestor::*` in document order (root first), so the first
`max_ancestors` entries of the chain are searched. -/
def find_buy_button_near (el : Elem) : Option Elem :=
  (el.anc.enum.take 3).findSome? (fun p =>
    match find_buy_button_in ⟨p.2, el.anc.take p.1⟩ with
    | some btn => if btn.node.displayed then some btn else none
    | none => none)

/-- `open_pdp_from_card`: click the first anchor with an absolute URL, else
the first image.  The Python code returns `True` after issuing the click
without checking whether the click itself succeeded. -/
def open_pdp_from_card (card : Elem) : Bool × List Click :=
  let anchors := (subtreeElems card).filter (fun a => a.node.tag == "a")
  match anchors.find? (fun a =>
      startsWithS (trimS ((getAttr a.node "href").getD "")) "http") with
  | some a => (true, [mkClick a.node "open_pdp_anchor"])
  | none =>
    let imgs := (subtreeElems card).filter (fun i => i.node.tag == "img")
    match imgs.head? with
    | some im => (true, [mkClick im.node "open_pdp_image"])
    | none => (false, [])

/-- Python falsiness of `preferred_size` (`None` or the empty string). -/
def sizeFalsy : Option String → Bool
  | none => true
  | some s => s == ""

/-- First phase of `select_size_on_pdp`: walk the button/label/a/div
candidates; on a displayed element whose text contains the token (plain
substring or word-boundary regex — the former subsumes the latter), attempt
the click; a failed click moves on to the next candidate. -/
def sizeMatchLoop (token : String) : List Elem → Bool × List Click
  | [] => (false, [])
  | c :: rest =>
    if c.node.displayed then
      let txt := lowerS (safe_get_text c.node)
      if containsSub txt token || wbSearch token txt then
        let cl := mkClick c.node ("select_size:" ++ takeS txt 20)
        if cl.ok then (true, [cl])
        else
          let r := sizeMatchLoop token rest
          (r.1, cl :: r.2)
      else sizeMatchLoop token rest
    else sizeMatchLoop token rest

/-- Second phase of `select_size_on_pdp`: match the token against
`aria-label` attributes (the XPath `//*[contains(@aria-label, '')]` matches
every element). -/
def ariaLoop (token : String) : List Elem → Bool × List Click
  | [] => (false, [])
  | e :: rest =>
    let aria := lowerS ((getAttr e.node "aria-label").getD "")
    if containsSub aria token then
      let cl := mkClick e.node ("size_by_aria:" ++ takeS aria 30)
      if cl.ok then (true, [cl])
      else
        let r := ariaLoop token rest
        (r.1, cl :: r.2)
    else ariaLoop token rest

/-- `select_size_on_pdp(driver, preferred_size)`. -/
def select_size_on_pdp (d : Driver) (pref : Option String) : Bool × List Click :=
  if sizeFalsy pref then (false, [])
  else
    let token := lowerS (trimS (pref.getD ""))
    let cands := (docElems d.root).filter (fun e =>
      e.node.tag == "button" || e.node.tag == "label" || e.node.tag == "a"
        || e.node.tag == "div")
    let r1 := sizeMatchLoop token cands
    if r1.1 then r1
    else
      let r2 := ariaLoop token (docElems d.root)
      (r2.1, r1.2 ++ r2.2)

/-- Plain-substring patterns of `find_global_add_to_cart`. -/
def addPatterns : List String :=
  ["add to bag", "add to cart", "add to basket", "buy now", "buy —", "buy",
   "checkout", "purchase", "add"]

/-- `find_global_add_to_cart(driver)`: first displayed button/link whose text
or markup contains an add-to-cart-ish pattern. -/
def find_global_add_to_cart (d : Driver) : Option Elem :=
  ((docElems d.root).filter (fun e =>
      e.node.tag == "button" || e.node.tag == "a")).find? (fun c =>
    c.node.displayed &&
      (let txt := lowerS (safe_get_text c.node)
       let outer := lowerS ((getAttr c.node "outerHTML").getD "")
       addPatterns.any (fun p => containsSub txt p || containsSub outer p)))

/-- Word-boundary patterns of `find_global_buy_ctas`. -/
def buyCtaPatterns : List String :=
  ["add to bag", "add to cart", "add to basket", "buy now", "buy", "checkout",
   "purchase", "view bag", "view cart", "go to cart"]

/-- Deny substrings of `find_global_buy_ctas`; checked against text, markup
and href before any allow pattern is consulted. -/
def denyList : List String :=
  ["notify me", "coming soon", "sold out", "out of stock", "payment options",
   "payment methods", "/help/", "help", "faq", "privacy", "terms", "learn more",
   "sign up", "join", "notify"]

/-- `find_global_buy_ctas(driver)`: visible buy/add/checkout CTAs across the
whole document.  An element whose text read raises is skipped (the
per-element `try` catches it).  There is no footer-ancestor check here. -/
def find_global_buy_ctas (d : Driver) : List Elem :=
  ((docElems d.root).filter (fun e =>
      e.node.tag == "button" || e.node.tag == "a")).filter (fun c =>
    c.node.displayed && !c.node.textErr &&
      (let txt := lowerS c.node.text
       let outer := lowerS ((getAttr c.node "outerHTML").getD "")
       let href := lowerS ((getAttr c.node "href").getD "")
       !(denyList.any (fun dd =>
           containsSub txt dd || containsSub outer dd || containsSub href dd))
         && buyCtaPatterns.any (fun p => wbSearch p txt || wbSearch p outer)))

def tokensBtn : List String :=
  ["accept", "agree", "allow all", "got it", "ok", "i understand", "continue"]

def tokensCtx : List String :=
  ["cookie", "consent", "gdpr", "privacy", "policy"]

/-- `1` for a successful click, `0` otherwise (the `if safe_click(...)` count
update inside `dismiss_banners`). -/
def clickCount (cl : Click) : Nat := if cl.ok then 1 else 0

/-- `dismiss_banners(driver, settings)`: click consent-accept buttons in a
cookie/consent context, then generic close affordances; returns the number of
successful clicks (and, in the embedding, the attempt log). -/
def dismiss_banners (d : Driver) (o : Option Settings) : Nat × List Click :=
  if bannersOff o then (0, [])
  else
    let ctas := (docElems d.root).filter (fun e =>
      e.node.tag == "button" || e.node.tag == "a" || e.node.tag == "div")
    let step1 := ctas.foldl (fun (acc : Nat × List Click) el =>
      if el.node.displayed && !el.node.textErr then
        let txt := lowerS el.node.text
        let outer := lowerS ((getAttr el.node "outerHTML").getD "")
        if (tokensBtn.any (fun t => containsSub txt t))
            && (tokensCtx.any (fun c => containsSub outer c || containsSub txt c)) then
          let cl := mkClick el.node "dismiss_banner"
          (acc.1 + clickCount cl, acc.2 ++ [cl])
        else acc
      else acc) (0, [])
    let closes := (docElems d.root).filter (fun e =>
      getAttr e.node "aria-label" == some "Close"
        || getAttr e.node "aria-label" == some "Dismiss"
        || containsSub ((getAttr e.node "class").getD "") "close")
    closes.foldl (fun (acc : Nat × List Click) c =>
      if c.node.displayed then
        let cl := mkClick c.node "dismiss_close"
        (acc.1 + clickCount cl, acc.2 ++ [cl])
      else acc) step1

/-- `page_contains_target(driver, product_name)`: every whitespace token of
the lowered product name occurs in the lowered page source. -/
def page_contains_target (d : Driver) (product : String) : Bool :=
  let body := lowerS d.pageSource
  let tokens := (splitWS (lowerS product)).filter (fun t => !(t == ""))
  if tokens.isEmpty then false else tokens.all (fun t => containsSub body t)

/-- `_is_footer(el)`: some ancestor is a `footer` or has `footer` in its
(lowercased) class attribute. -/
def _is_footer (e : Elem) : Bool :=
  e.anc.any (fun n =>
    n.tag == "footer" || containsSub (lowerS ((getAttr n "class").getD "")) "footer")

def checkoutWbPatterns : List String :=
  ["checkout", "view bag", "view cart", "go to cart", "proceed"]

def checkoutPlainPatterns : List String :=
  ["continue to checkout"]

def checkoutDeny : List String :=
  ["payment options", "payment methods", "/help/", "help", "faq", "privacy",
   "terms", "learn more"]

/-- One scan of the CTA list inside `proceed_to_checkout`: skip invisible or
footer-scoped or deny-listed elements; on a checkout-pattern match attempt the
click (a failed `safe_click` just moves on — `safe_click` never raises, so
the `ElementClickInterceptedException` handler in the source is dead code). -/
def checkoutLoop : List Elem → Bool × List Click
  | [] => (false, [])
  | cta :: rest =>
    if !cta.node.displayed || _is_footer cta then checkoutLoop rest
    else
      let txt := lowerS (safe_get_text cta.node)
      let outer := lowerS ((getAttr cta.node "outerHTML").getD "")
      let href := lowerS ((getAttr cta.node "href").getD "")
      if checkoutDeny.any (fun dd =>
          containsSub txt dd || containsSub outer dd || containsSub href dd) then
        checkoutLoop rest
      else if (checkoutWbPatterns.any (fun p => wbSearch p txt || wbSearch p outer))
          || (checkoutPlainPatterns.any (fun p =>
                containsSub txt p || containsSub outer p)) then
        let cl := mkClick cta.node "checkout_transition"
        if cl.ok then (true, [cl])
        else
          let r := checkoutLoop rest
          (r.1, cl :: r.2)
      else checkoutLoop rest

/-- `proceed_to_checkout(driver, settings)`.  The source polls the same scan
until a timeout; the document is static in the embedding, so every further
poll repeats the first one and a single scan determines the outcome. -/
def proceed_to_checkout (d : Driver) (_o : Option Settings) : Bool × List Click :=
  checkoutLoop ((docElems d.root).filter (fun e =>
    e.node.tag == "button" || e.node.tag == "a"))

/-- The shared post-click sequence at every purchase-path click site of
`find_product_and_buy` / `attempt_global_buy_flow`: click, and on success run
`proceed_to_checkout` and, when card data was supplied, the form filler.
The form filler's own click activity is an opaque parameter `F` of the model
(its internals live in `form_filler.py` and do not influence the results
proved here). -/
def tryClickStep (d : Driver) (o : Option Settings) (cc : Bool) (F : List Click)
    (n : Node) (desc : String) : Bool × List Click :=
  let cl := mkClick n desc
  if cl.ok then
    let pc := proceed_to_checkout d o
    (true, cl :: (pc.2 ++ (if cc then F else [])))
  else (false, [cl])

/-- `attempt_global_buy_flow(driver, product_name, preferred_size, settings,
cc_info)` (the `product_name` argument is unused in the source body too). -/
def attempt_global_buy_flow (d : Driver) (pref : Option String) (s : Settings)
    (cc : Bool) (F : List Click) : Bool × List Click :=
  let sizeCl := if (s.select_size_before_global).getD true
                then (select_size_on_pdp d pref).2 else []
  match find_global_buy_ctas d with
  | [] => (false, sizeCl)
  | btn :: _ =>
    let r := tryClickStep d (some s) cc F btn.node "global_buy_any"
    (r.1, sizeCl ++ r.2)

/-- The matched-card branch of `find_product_and_buy`: inline CTA, nearby
CTA, PDP flow (open, size, add-to-cart or global CTA), then a document-wide
CTA as last resort; the first successful click wins. -/
def matchedCardFlow (d : Driver) (o : Option Settings) (pref : Option String)
    (cc : Bool) (F : List Click) (el : Elem) : Bool × List Click :=
  let inline :=
    match find_buy_button_in el with
    | some b => tryClickStep d o cc F b.node "inline_buy"
    | none => (false, [])
  if inline.1 then inline
  else
    let near :=
      match find_buy_button_near el with
      | some b => tryClickStep d o cc F b.node "near_buy"
      | none => (false, [])
    if near.1 then (true, inline.2 ++ near.2)
    else
      let pdp := open_pdp_from_card el
      let pdpPart :=
        if pdp.1 then
          let sz := select_size_on_pdp d pref
          let inner :=
            match find_global_add_to_cart d with
            | some ab => tryClickStep d o cc F ab.node "pdp_add_to_cart"
            | none =>
              match find_global_buy_ctas d with
              | g :: _ => tryClickStep d o cc F g.node "global_buy"
              | [] => (false, [])
          (inner.1, sz.2 ++ inner.2)
        else (false, [])
      let sofar := inline.2 ++ near.2 ++ pdp.2 ++ pdpPart.2
      if pdpPart.1 then (true, sofar)
      else
        let last :=
          match find_global_buy_ctas d with
          | g :: _ => tryClickStep d o cc F g.node "global_buy_list"
          | [] => (false, [])
        (last.1, sofar ++ last.2)

/-- The scan-pass loop of `find_product_and_buy`, carrying the running best
score and best match across passes.  Per pass: extract cards, fold the best
fuzzy match (strict improvement), try the gated global-buy shortcut, then the
matched-card branch when the best score reached `min_match_score`. -/
def fpbLoop (d : Driver) (product : String) (target : String) (pref : Option String)
    (o : Option Settings) (minScore : Frac) (cc : Bool) (F : List Click) :
    Nat → Frac → Option (Elem × String) → Bool × List Click
  | 0, _, _ => (false, [])
  | fuel+1, best, bestM =>
    let cards := extract_candidate_cards d 400
    let folded := cards.foldl
      (fun (acc : Frac × Option (Elem × String)) c =>
        let score := similar target c.2
        if Frac.lt acc.1 score then (score, some c) else acc) (best, bestM)
    let allowName := getOrEmpty o (fun s => s.allow_global_cta_when_name_found) true
    let allowAny := getOrEmpty o (fun s => s.allow_global_cta_always) false
    let gRes :=
      if allowAny || (allowName && page_contains_target d product) then
        attempt_global_buy_flow d pref (o.getD Settings.empty) cc F
      else (false, [])
    if gRes.1 then gRes
    else
      let matchedPart :=
        match folded.2 with
        | some c => if Frac.le minScore folded.1
                    then matchedCardFlow d o pref cc F c.1
                    else (false, [])
        | none => (false, [])
      if matchedPart.1 then (true, gRes.2 ++ matchedPart.2)
      else
        let r := fpbLoop d product target pref o minScore cc F fuel folded.1 folded.2
        (r.1, gRes.2 ++ matchedPart.2 ++ r.2)

/-- `find_product_and_buy(driver, product_name, preferred_size, settings,
cc_info)`.  `cc` abstracts the truthiness of `cc_info`; `F` is the opaque
click activity of the delegated form filler. -/
def find_product_and_buy (d : Driver) (product : String) (pref : Option String)
    (o : Option Settings) (cc : Bool) (F : List Click) : Bool × List Click :=
  let ban := dismiss_banners d o
  let target := lowerS (trimS product)
  let maxScrolls := getIfTruthy o (fun s => s.max_scrolls) 3
  let minScore := getIfTruthy o (fun s => s.min_match_score) ⟨7, 10⟩
  let r := fpbLoop d product target pref o minScore cc F maxScrolls ⟨0, 1⟩ none
  (r.1, ban.2 ++ r.2)

/-- A recorded click that initiated the purchase path: successful, and issued
at one of the six buy-path call sites of `find_product_and_buy` /
`attempt_global_buy_flow` (identified by their `desc` tags). -/
def okBuyClick (c : Click) : Bool :=
  c.ok && (c.desc == "inline_buy" || c.desc == "near_buy"
    || c.desc == "pdp_add_to_cart" || c.desc == "global_buy"
    || c.desc == "global_buy_any" || c.desc == "global_buy_list")

/-- Abbreviation for "no purchase-path click in this log". -/
def noBuy (l : List Click) : Bool := l.all (fun c => !okBuyClick c)

/-- The purchase-path soundness contract for a flag/log pair: a `true` flag
comes with a purchase-path click in the log, a `false` flag with a buy-free
log. -/
def BuySpec (p : Bool × List Click) : Prop :=
  (p.1 = true → p.2.any okBuyClick = true)
  ∧ (p.1 = false → noBuy p.2 = true)
end AiDetector

namespace Monitor

/-! ## `monitor.check_product_and_buy` as a transition system

The monitoring loop is modelled per observable action.  The outcome of the
`k`-th `find_product_and_buy` invocation is the oracle `scanO k`; whether a
challenge is detected after the `k`-th page load is the oracle `chO k`.
Driver creation, robots.txt checks, navigation failures, the dead-driver
recovery path and `KeyboardInterrupt` are outside the modelled happy path
(none of them writes `purchase_initiated`).  The infinite `while True` loop
is observed for a finite number of cycles. -/

inductive MAction where
  | navigate (idx : Nat)
  | challengeHandled
  | scan (result : Bool)
  | retryRefresh
  | idleSleep
deriving DecidableEq, Repr

structure MonSt where
  initiated : Bool
  curUrl : Nat
  scans : Nat
  navs : Nat
deriving DecidableEq, Repr

/-- One URL slot inside a scan cycle: switch pages if needed (with challenge
handling), then either skip (purchase already initiated) or invoke the
detector; the third component is true when `stop_on_success` ends the
session right here with `return True`. -/
def urlVisit (stop : Bool) (scanO chO : Nat → Bool) (s : MonSt) (idx : Nat) :
    MonSt × List MAction × Bool :=
  let nav :=
    if s.curUrl ≠ idx then
      (({ s with curUrl := idx, navs := s.navs + 1 } : MonSt),
        MAction.navigate idx ::
          (if chO s.navs then [MAction.challengeHandled] else []))
    else (s, [])
  let s1 := nav.1
  if s1.initiated then (s1, nav.2, false)
  else
    let r := scanO s1.scans
    (({ s1 with initiated := s1.initiated || r, scans := s1.scans + 1 } : MonSt),
      nav.2 ++ [MAction.scan r], r && stop)

/-- The `for` loop over the monitored URLs. -/
def urlLoop (stop : Bool) (scanO chO : Nat → Bool) :
    List Nat → MonSt → MonSt × List MAction × Bool
  | [], s => (s, [], false)
  | i :: rest, s =>
    let v := urlVisit stop scanO chO s i
    if v.2.2 then v
    else
      let r := urlLoop stop scanO chO rest v.1
      (r.1, v.2.1 ++ r.2.1, r.2.2)

/-- One cycle of the `while True` loop: visit every URL, then either the
retry branch (sleep, refresh, challenge check) when no purchase has been
initiated, or the passive idle sleep. -/
def cycleRun (stop : Bool) (scanO chO : Nat → Bool) (urls : Nat) (s : MonSt) :
    MonSt × List MAction × Bool :=
  let l := urlLoop stop scanO chO (List.range urls) s
  if l.2.2 then l
  else if !l.1.initiated then
    (({ l.1 with navs := l.1.navs + 1 } : MonSt),
      l.2.1 ++ [MAction.retryRefresh]
        ++ (if chO l.1.navs then [MAction.challengeHandled] else []),
      false)
  else (l.1, l.2.1 ++ [MAction.idleSleep], false)

/-- `n` observed cycles (stopping early when `stop_on_success` fires). -/
def runCycles (stop : Bool) (scanO chO : Nat → Bool) (urls : Nat) :
    Nat → MonSt → MonSt × List MAction × Bool
  | 0, s => (s, [], false)
  | n+1, s =>
    let c := cycleRun stop scanO chO urls s
    if c.2.2 then c
    else
      let r := runCycles stop scanO chO urls n c.1
      (r.1, c.2.1 ++ r.2.1, r.2.2)

/-- `check_product_and_buy`, observed for `n` cycles: initial navigation to
the primary URL (with challenge handling), then the monitoring loop. -/
def check_product_and_buy (stop : Bool) (scanO chO : Nat → Bool)
    (urls n : Nat) : MonSt × List MAction × Bool :=
  let s0 : MonSt := ⟨false, 0, 0, 1⟩
  let init : List MAction :=
    MAction.navigate 0 :: (if chO 0 then [MAction.challengeHandled] else [])
  let r := runCycles stop scanO chO urls n s0
  (r.1, init ++ r.2.1, r.2.2)

/-- Actions a post-initiation cycle is allowed to contain: URL rotation with
its challenge handling, and the passive idle sleep. -/
def passiveAct : MAction → Bool
  | .navigate _ => true
  | .challengeHandled => true
  | .idleSleep => true
  | _ => false

def isScanAct : MAction → Bool
  | .scan _ => true
  | _ => false

/-- Number of successful purchase initiations recorded in a trace. -/
def countInit (tr : List MAction) : Nat :=
  (tr.filter (fun a => match a with | .scan true => true | _ => false)).length

end Monitor

/-! ## Concrete documents used by the counterexamples and evaluations -/

section Demos
open AiDetector

/-- C1 demo: one well-matching product card whose only button says "share" —
no buy/add/checkout CTA anywhere on the page. -/
def c1Share : Node := Node.mk "button" "share" [] true false none []
def c1Card : Node := Node.mk "div" "widget stuff\nx" [] true false none [c1Share]
def c1Root : Node := Node.mk "body" "widget stuff\nx share" [] true false none [c1Card]
def c1Driver : Driver := ⟨c1Root, ""⟩

/-- Modelled from the spec: the claim-side notion of a "buy/add/checkout CTA"
(§4.4's allow patterns for the buy, checkout and submit categories), used
only to state what the spec's guarantee promises about the clicked element. -/
def specBuyCta (n : Node) : Bool :=
  let txt := lowerS n.text
  let outer := lowerS ((getAttr n "outerHTML").getD "")
  (["add to bag", "add to cart", "add to basket", "buy now", "buy", "checkout",
    "purchase", "view bag", "view cart", "go to cart", "shop now", "proceed",
    "continue to checkout", "place order", "complete purchase", "pay now"]).any
    (fun p => containsSub txt p || containsSub outer p)

/-- C3 demo: footer with a "Buy Now" link, body with an "Add to Bag" button. -/
def c3BuyA : Node :=
  Node.mk "a" "Buy Now"
    [("outerHTML", "<a>Buy Now</a>"), ("href", "http://shop/x")] true false none []
def c3Footer : Node := Node.mk "footer" "Buy Now" [] true false none [c3BuyA]
def c3AddBtn : Node :=
  Node.mk "button" "Add to Bag" [("outerHTML", "<button>Add to Bag</button>")]
    true false none []
def c3Root : Node := Node.mk "body" "Buy Now Add to Bag" [] true false none [c3Footer, c3AddBtn]
def c3Driver : Driver := ⟨c3Root, ""⟩

/-- C4 demo: a low-scoring card plus a visible "buy now" CTA; the page text
contains the product name. -/
def c4Card : Node := Node.mk "div" "zzz\nqqq" [] true false none []
def c4Buy : Node := Node.mk "button" "buy now" [] true false none []
def c4Root : Node := Node.mk "body" "zzz qqq buy now widget" [] true false none [c4Card, c4Buy]
def c4Driver : Driver := ⟨c4Root, "widget"⟩

/-- Settings `min_match_score=0.9` (with banner dismissal disabled). -/
def c4Settings : Settings := ⟨some 3, some ⟨9, 10⟩, some false, none, none, none⟩

/-- Like `c4Settings` but with the global-CTA-on-name-found gate disabled. -/
def c4SettingsNoGlobal : Settings :=
  ⟨some 3, some ⟨9, 10⟩, some false, some false, none, none⟩

/-- C6 witness demo: a single visible "Add to Bag" button. -/
def c6Btn : Node := Node.mk "button" "Add to Bag" [] true false none []
def c6Root : Node := Node.mk "body" "Add to Bag" [] true false none [c6Btn]
def c6Driver : Driver := ⟨c6Root, ""⟩
def c6Elem : Elem := ⟨c6Btn, [c6Root]⟩

/-- C7 demo: 401 product-like blocks. -/
def c7Card : Node := Node.mk "div" "a\nb" [] true false none []
def c7Root : Node := Node.mk "body" "x" [] true false none (List.replicate 401 c7Card)
def c7Driver : Driver := ⟨c7Root, ""⟩

/-- C8 demos: both size buttons visible and clickable, in each order. -/
def c8Half : Node := Node.mk "button" "10.5" [] true false none []
def c8Exact : Node := Node.mk "button" "10" [] true false none []
def c8RootA : Node := Node.mk "body" "10.5 10" [] true false none [c8Half, c8Exact]
def c8RootB : Node := Node.mk "body" "10 10.5" [] true false none [c8Exact, c8Half]
def c8DriverA : Driver := ⟨c8RootA, ""⟩
def c8DriverB : Driver := ⟨c8RootB, ""⟩

/-- The trace of the second cycle of a two-URL session whose first scan
initiated the purchase (`stop_on_success` disabled). -/
def c2SecondCycle : List Monitor.MAction :=
  (Monitor.cycleRun false (fun _ => true) (fun _ => false) 2
    (Monitor.cycleRun false (fun _ => true) (fun _ => false) 2
      ⟨false, 0, 0, 1⟩).1).2.1

end Demos

/-! ## Claim theorems (easy group) -/

/-- C9: expiry normalization maps `"1226"` to `"12/26"`, leaves `"12/26"`
unchanged, and maps `"12-26"` (and the other separators `.` and space) to
`"12/26"`. -/
theorem C9_normalize_expiry :
    FormFiller._normalize_expiry "1226" = "12/26"
    ∧ FormFiller._normalize_expiry "12/26" = "12/26"
    ∧ FormFiller._normalize_expiry "12-26" = "12/26"
    ∧ FormFiller._normalize_expiry "12 26" = "12/26"
    ∧ FormFiller._normalize_expiry "12.26" = "12/26" := by
  refine ⟨?_, ?_, ?_, ?_, ?_⟩ <;> decide

/-- C10: `safe_click` is total — it returns a boolean for every element and
driver state (totality is by construction in the embedding), it returns
`true` exactly when both the logging text read and the click raised nothing,
and each modelled exception class (stale element, WebDriver-level, other)
yields `false`. -/
theorem C10_safe_click_total :
    (∀ n : Node, Utils.safe_click n = true ↔ (n.textErr = false ∧ n.clickErr = none))
    ∧ (∀ t x a d te (e : ClickErr) ch,
        Utils.safe_click (Node.mk t x a d te (some e) ch) = false)
    ∧ (∀ t x a d (ce : Option ClickErr) ch,
        Utils.safe_click (Node.mk t x a d true ce ch) = false) := by
  refine ⟨fun n => ?_, fun t x a d te e ch => ?_, fun t x a d ce ch => ?_⟩
  · cases n with
    | mk t x a d te ce ch =>
      cases te <;> cases ce <;>
        simp [Utils.safe_click, Node.textErr, Node.clickErr, Option.isNone]
  · cases te <;> simp [Utils.safe_click, Node.textErr, Node.clickErr, Option.isNone]
  · simp [Utils.safe_click, Node.textErr]

/-- C3: the buy-CTA classifier does NOT exclude footer-scoped elements — on a
document whose footer holds a visible "Buy Now" link and whose body holds a
non-footer "Add to Bag" button, `find_global_buy_ctas` returns both, the
footer link included (the `_is_footer` filter is applied only in
`proceed_to_checkout`, contradicting the module's own "avoid footer ... links"
documentation). -/
theorem C3_footer_link_not_excluded :
    (AiDetector.find_global_buy_ctas c3Driver).map
        (fun e => (e.node.text, AiDetector._is_footer e))
      = [("Buy Now", true), ("Add to Bag", false)] := by decide

set_option maxRecDepth 100000 in
/-- C7: the scan limit is never enforced — `extract_candidate_cards` declares
`limit=400` but the body ignores it, so a page with 401 qualifying blocks
yields 401 candidates. -/
theorem C7_scan_limit_not_enforced :
    (AiDetector.extract_candidate_cards c7Driver 400).length = 401
    ∧ 400 < (AiDetector.extract_candidate_cards c7Driver 400).length := by
  refine ⟨?_, ?_⟩ <;> decide

/-- C8 counterexample: with a visible `"10.5"` element preceding the visible
exact `"10"` element, `select_size(doc, "10")` clicks `"10.5"` — matching is
plain substring containment (`token in txt`), and even the word-boundary
regex branch matches `"10"` inside `"10.5"` because `.` is a non-word
character. -/
theorem C8_counterexample :
    ((AiDetector.select_size_on_pdp c8DriverA (some "10")).2.map
        (fun c => (c.node.text, c.ok)) = [("10.5", true)])
    ∧ (AiDetector.select_size_on_pdp c8DriverA (some "10")).1 = true := by
  refine ⟨?_, ?_⟩ <;> decide

/-- C8 amended: `select_size` clicks the first visible, clickable element in
document order whose text contains the normalized size token; the exact
`"10"` element is preferred over `"10.5"` exactly when it comes first. -/
theorem C8_first_match_in_document_order :
    ((AiDetector.select_size_on_pdp c8DriverB (some "10")).2.map
        (fun c => (c.node.text, c.ok)) = [("10", true)])
    ∧ (AiDetector.select_size_on_pdp c8DriverB (some "10")).1 = true
    ∧ ((AiDetector.select_size_on_pdp c8DriverA (some "10")).2.map
        (fun c => (c.node.text, c.ok)) = [("10.5", true)]) := by
  refine ⟨?_, ?_, ?_⟩ <;> decide

/-- C5 counterexample: `similar` is not symmetric, even on already-lowercase
inputs — `similar("aba","babba") = 3/4` but `similar("babba","aba") = 1/2`
(`SequenceMatcher.ratio` treats its two sequences asymmetrically). -/
theorem C5_symmetry_counterexample :
    Frac.valEq (similar "aba" "babba") ⟨3, 4⟩ = true
    ∧ Frac.valEq (similar "babba" "aba") ⟨1, 2⟩ = true
    ∧ Frac.valEq (similar "aba" "babba") (similar "babba" "aba") = false := by
  refine ⟨?_, ?_, ?_⟩ <;> decide

/-- C1 counterexample: `find_product_and_buy` returns `true` after clicking
the "share" button — the only button inside the matched card, reached through
`find_buy_button_in`'s first-visible-button fallback — although nothing on
the page is a buy/add/checkout CTA in the spec's sense. -/
theorem C1_counterexample :
    (AiDetector.find_product_and_buy c1Driver "widget stuff" none none false []).1 = true
    ∧ (AiDetector.find_product_and_buy c1Driver "widget stuff" none none false []).2.all
        (fun c => !(c.ok && specBuyCta c.node)) = true := by
  refine ⟨?_, ?_⟩ <;> decide

/-- C4 counterexample: every candidate card scores below
`min_match_score = 9/10`, yet `find_product_and_buy` returns `true` and
clicks — the global-CTA shortcut fires on the cheap page-text check,
independent of the fuzzy-match score. -/
theorem C4_counterexample :
    ((AiDetector.extract_candidate_cards c4Driver 400).all
        (fun c => Frac.lt (similar "widget" c.2) ⟨9, 10⟩) = true)
    ∧ (AiDetector.find_product_and_buy c4Driver "widget" none (some c4Settings) false []).1 = true
    ∧ (AiDetector.find_product_and_buy c4Driver "widget" none (some c4Settings) false []).2.any
        (fun c => c.ok) = true := by
  refine ⟨?_, ?_, ?_⟩ <;> decide

/-- C6: deny patterns take precedence in the buy-CTA classifier — every
element returned by `find_global_buy_ctas` is free of every deny token in its
text, markup and href; in particular an element whose text is
"Notify Me When Available" (which contains the deny token "notify me") is
never returned, whatever allow patterns it also matches. -/
theorem C6_deny_precedence (d : Driver) (e : Elem)
    (h : e ∈ AiDetector.find_global_buy_ctas d) :
    (AiDetector.denyList.all (fun dd =>
        !(containsSub (lowerS e.node.text) dd
          || containsSub (lowerS ((getAttr e.node "outerHTML").getD "")) dd
          || containsSub (lowerS ((getAttr e.node "href").getD "")) dd)) = true)
    ∧ e.node.text ≠ "Notify Me When Available" := by
  unfold AiDetector.find_global_buy_ctas at h
  have hp := (List.mem_filter.mp h).2
  simp only [Bool.and_eq_true] at hp
  have hdeny : (AiDetector.denyList.any (fun dd =>
      containsSub (lowerS e.node.text) dd
        || containsSub (lowerS ((getAttr e.node "outerHTML").getD "")) dd
        || containsSub (lowerS ((getAttr e.node "href").getD "")) dd)) = false := by
    have := hp.2.1
    simpa using this
  have hall : (AiDetector.denyList.all (fun dd =>
      !(containsSub (lowerS e.node.text) dd
        || containsSub (lowerS ((getAttr e.node "outerHTML").getD "")) dd
        || containsSub (lowerS ((getAttr e.node "href").getD "")) dd)) = true) := by
    rw [List.all_eq_true]
    intro dd hdd
    have := (List.any_eq_false).mp hdeny dd hdd
    simpa using this
  refine ⟨hall, ?_⟩
  intro htext
  have hmem : "notify me" ∈ AiDetector.denyList := by decide
  have := (List.all_eq_true).mp hall "notify me" hmem
  rw [htext] at this
  simp only [Bool.not_eq_true'] at this
  have hc : containsSub (lowerS "Notify Me When Available") "notify me" = true := by decide
  simp [hc] at this

/-- Witness for C6 at a concrete document: the single "Add to Bag" button is
classified and is deny-free. -/
theorem C6_deny_precedence_witness :
    (AiDetector.denyList.all (fun dd =>
        !(containsSub (lowerS c6Elem.node.text) dd
          || containsSub (lowerS ((getAttr c6Elem.node "outerHTML").getD "")) dd
          || containsSub (lowerS ((getAttr c6Elem.node "href").getD "")) dd)) = true)
    ∧ c6Elem.node.text ≠ "Notify Me When Available" := by
  have hm : c6Elem ∈ AiDetector.find_global_buy_ctas c6Driver := by
    have he : AiDetector.find_global_buy_ctas c6Driver = [c6Elem] := by rfl
    rw [he]
    exact List.mem_singleton.mpr rfl
  exact C6_deny_precedence c6Driver c6Elem hm

/-! ## Monitor lemmas for C2 -/

namespace Monitor

/-- A visit made with the purchase already initiated neither scans nor
terminates and performs only passive actions. -/
lemma urlVisit_initiated (stop : Bool) (scanO chO : Nat → Bool) (s : MonSt)
    (i : Nat) (h : s.initiated = true) :
    (urlVisit stop scanO chO s i).1.initiated = true
    ∧ (urlVisit stop scanO chO s i).2.1.all passiveAct = true
    ∧ (urlVisit stop scanO chO s i).2.2 = false := by
  unfold urlVisit
  by_cases hc : s.curUrl = i
  · simp [hc, h, passiveAct]
  · by_cases hch : chO s.navs = true
    · simp [hc, h, hch, passiveAct]
    · simp only [Bool.not_eq_true] at hch
      simp [hc, h, hch, passiveAct]

/-- The URL loop with the purchase already initiated: state stays initiated,
only passive actions, no termination. -/
lemma urlLoop_initiated (stop : Bool) (scanO chO : Nat → Bool) :
    ∀ (l : List Nat) (s : MonSt), s.initiated = true →
      (urlLoop stop scanO chO l s).1.initiated = true
      ∧ (urlLoop stop scanO chO l s).2.1.all passiveAct = true
      ∧ (urlLoop stop scanO chO l s).2.2 = false := by
  intro l
  induction l with
  | nil => intro s h; exact ⟨h, rfl, rfl⟩
  | cons i rest ih =>
    intro s h
    obtain ⟨h1, h2, h3⟩ := urlVisit_initiated stop scanO chO s i h
    obtain ⟨g1, g2, g3⟩ := ih (urlVisit stop scanO chO s i).1 h1
    have hneg : ¬((urlVisit stop scanO chO s i).2.2 = true) := by
      rw [h3]; exact Bool.false_ne_true
    unfold urlLoop
    rw [if_neg hneg]
    refine ⟨g1, ?_, g3⟩
    show ((urlVisit stop scanO chO s i).2.1
        ++ (urlLoop stop scanO chO rest (urlVisit stop scanO chO s i).1).2.1).all
          passiveAct = true
    rw [List.all_append, h2, g2]
    rfl

/-- A cycle entered with the purchase initiated does not scan, does not
refresh, stays initiated, and performs only passive actions (URL rotation,
challenge handling, the idle sleep). -/
lemma cycleRun_initiated (stop : Bool) (scanO chO : Nat → Bool) (urls : Nat)
    (s : MonSt) (h : s.initiated = true) :
    (cycleRun stop scanO chO urls s).1.initiated = true
    ∧ (cycleRun stop scanO chO urls s).2.1.all passiveAct = true
    ∧ (cycleRun stop scanO chO urls s).2.2 = false := by
  obtain ⟨h1, h2, h3⟩ := urlLoop_initiated stop scanO chO (List.range urls) s h
  have hneg : ¬((urlLoop stop scanO chO (List.range urls) s).2.2 = true) := by
    rw [h3]; exact Bool.false_ne_true
  have hneg2 : ¬((!(urlLoop stop scanO chO (List.range urls) s).1.initiated) = true) := by
    rw [h1]; decide
  unfold cycleRun
  rw [if_neg hneg, if_neg hneg2]
  refine ⟨h1, ?_, rfl⟩
  show ((urlLoop stop scanO chO (List.range urls) s).2.1
      ++ [MAction.idleSleep]).all passiveAct = true
  rw [List.all_append, h2]
  rfl

/-- Once initiated, the whole observed run stays initiated. -/
lemma runCycles_initiated_mono (stop : Bool) (scanO chO : Nat → Bool)
    (urls : Nat) : ∀ (n : Nat) (s : MonSt), s.initiated = true →
      (runCycles stop scanO chO urls n s).1.initiated = true := by
  intro n
  induction n with
  | zero => intro s h; exact h
  | succ m ih =>
    intro s h
    obtain ⟨h1, _, h3⟩ := cycleRun_initiated stop scanO chO urls s h
    have hneg : ¬((cycleRun stop scanO chO urls s).2.2 = true) := by
      rw [h3]; exact Bool.false_ne_true
    unfold runCycles
    rw [if_neg hneg]
    exact ih _ h1

lemma countInit_append (a b : List MAction) :
    countInit (a ++ b) = countInit a + countInit b := by
  unfold countInit
  rw [List.filter_append, List.length_append]

lemma countInit_challenge (chO : Nat → Bool) (k : Nat) :
    countInit (if chO k then [MAction.challengeHandled] else []) = 0 := by
  by_cases h : chO k = true <;> simp [h, countInit]

/-- One visit under `stop_on_success` from a non-initiated state: the number
of initiations in its trace equals 1 exactly when it terminates the session,
and a non-terminating visit leaves the state non-initiated with no
initiations recorded. -/
lemma urlVisit_stop_count (scanO chO : Nat → Bool) (s : MonSt) (i : Nat)
    (h : s.initiated = false) :
    (((urlVisit true scanO chO s i).2.2 = true
        ∧ countInit (urlVisit true scanO chO s i).2.1 = 1)
      ∨ ((urlVisit true scanO chO s i).2.2 = false
        ∧ countInit (urlVisit true scanO chO s i).2.1 = 0
        ∧ (urlVisit true scanO chO s i).1.initiated = false)) := by
  unfold urlVisit
  by_cases hc : s.curUrl = i
  · by_cases hr : scanO s.scans = true
    · left; simp [hc, hr, h, countInit]
    · right
      simp only [Bool.not_eq_true] at hr
      simp [hc, hr, h, countInit]
  · by_cases hch : chO s.navs = true
    · by_cases hr : scanO s.scans = true
      · left; simp [hc, hch, hr, h, countInit]
      · right
        simp only [Bool.not_eq_true] at hr
        simp [hc, hch, hr, h, countInit]
    · simp only [Bool.not_eq_true] at hch
      by_cases hr : scanO s.scans = true
      · left; simp [hc, hch, hr, h, countInit]
      · right
        simp only [Bool.not_eq_true] at hr
        simp [hc, hch, hr, h, countInit]

/-- The URL loop under `stop_on_success`: exactly one initiation when it
terminates, none otherwise (entered non-initiated). -/
lemma urlLoop_stop_count (scanO chO : Nat → Bool) :
    ∀ (l : List Nat) (s : MonSt), s.initiated = false →
      (((urlLoop true scanO chO l s).2.2 = true
          ∧ countInit (urlLoop true scanO chO l s).2.1 = 1)
        ∨ ((urlLoop true scanO chO l s).2.2 = false
          ∧ countInit (urlLoop true scanO chO l s).2.1 = 0
          ∧ (urlLoop true scanO chO l s).1.initiated = false)) := by
  intro l
  induction l with
  | nil => intro s h; right; exact ⟨rfl, rfl, h⟩
  | cons i rest ih =>
    intro s h
    rcases urlVisit_stop_count scanO chO s i h with ⟨ht, hcnt⟩ | ⟨ht, hcnt, hst⟩
    · left
      unfold urlLoop
      rw [if_pos ht]
      exact ⟨ht, hcnt⟩
    · have hneg : ¬((urlVisit true scanO chO s i).2.2 = true) := by
        rw [ht]; exact Bool.false_ne_true
      rcases ih (urlVisit true scanO chO s i).1 hst with ⟨gt, gcnt⟩ | ⟨gt, gcnt, gst⟩
      · left
        unfold urlLoop
        rw [if_neg hneg]
        refine ⟨gt, ?_⟩
        show countInit ((urlVisit true scanO chO s i).2.1
            ++ (urlLoop true scanO chO rest (urlVisit true scanO chO s i).1).2.1) = 1
        rw [countInit_append, hcnt, gcnt]
      · right
        unfold urlLoop
        rw [if_neg hneg]
        refine ⟨gt, ?_, gst⟩
        show countInit ((urlVisit true scanO chO s i).2.1
            ++ (urlLoop true scanO chO rest (urlVisit true scanO chO s i).1).2.1) = 0
        rw [countInit_append, hcnt, gcnt]

/-- One cycle under `stop_on_success` from a non-initiated state. -/
lemma cycleRun_stop_count (scanO chO : Nat → Bool) (urls : Nat) (s : MonSt)
    (h : s.initiated = false) :
    (((cycleRun true scanO chO urls s).2.2 = true
        ∧ countInit (cycleRun true scanO chO urls s).2.1 = 1)
      ∨ ((cycleRun true scanO chO urls s).2.2 = false
        ∧ countInit (cycleRun true scanO chO urls s).2.1 = 0
        ∧ (cycleRun true scanO chO urls s).1.initiated = false)) := by
  rcases urlLoop_stop_count scanO chO (List.range urls) s h with
    ⟨ht, hcnt⟩ | ⟨ht, hcnt, hst⟩
  · left
    unfold cycleRun
    rw [if_pos ht]
    exact ⟨ht, hcnt⟩
  · have hneg : ¬((urlLoop true scanO chO (List.range urls) s).2.2 = true) := by
      rw [ht]; exact Bool.false_ne_true
    have hpos : (!(urlLoop true scanO chO (List.range urls) s).1.initiated) = true := by
      rw [hst]; rfl
    right
    unfold cycleRun
    rw [if_neg hneg, if_pos hpos]
    refine ⟨rfl, ?_, hst⟩
    show countInit ((urlLoop true scanO chO (List.range urls) s).2.1
        ++ [MAction.retryRefresh]
        ++ (if chO (urlLoop true scanO chO (List.range urls) s).1.navs
            then [MAction.challengeHandled] else [])) = 0
    rw [countInit_append, countInit_append, hcnt, countInit_challenge]
    rfl

/-- The observed run under `stop_on_success` records at most one initiation. -/
lemma runCycles_stop_count (scanO chO : Nat → Bool) (urls : Nat) :
    ∀ (n : Nat) (s : MonSt), s.initiated = false →
      countInit (runCycles true scanO chO urls n s).2.1 ≤ 1 := by
  intro n
  induction n with
  | zero => intro s _; simp [runCycles, countInit]
  | succ m ih =>
    intro s h
    rcases cycleRun_stop_count scanO chO urls s h with ⟨ht, hcnt⟩ | ⟨ht, hcnt, hst⟩
    · unfold runCycles
      rw [if_pos ht]
      omega
    · have hneg : ¬((cycleRun true scanO chO urls s).2.2 = true) := by
        rw [ht]; exact Bool.false_ne_true
      unfold runCycles
      rw [if_neg hneg]
      show countInit ((cycleRun true scanO chO urls s).2.1
          ++ (runCycles true scanO chO urls m (cycleRun true scanO chO urls s).1).2.1) ≤ 1
      rw [countInit_append, hcnt]
      simpa using ih _ hst

end Monitor

/-- C2 (amended): in every monitoring session, (a) once `purchase_initiated`
is set it is never unset; (b) with `stop_on_success` enabled at most one
purchase initiation occurs in the whole observed session; (c) every cycle
entered with the purchase initiated skips `find_product_and_buy` entirely and
performs only passive actions — the idle sleep, plus rotation between the
monitored URLs and its challenge handling (so a multi-URL session still
navigates; it does not purely idle). -/
theorem C2_session_invariants (stop : Bool) (scanO chO : Nat → Bool) (urls : Nat) :
    (∀ (n : Nat) (s : Monitor.MonSt), s.initiated = true →
        (Monitor.runCycles stop scanO chO urls n s).1.initiated = true)
    ∧ (stop = true → ∀ n : Nat,
        Monitor.countInit (Monitor.check_product_and_buy stop scanO chO urls n).2.1 ≤ 1)
    ∧ (∀ s : Monitor.MonSt, s.initiated = true →
        (Monitor.cycleRun stop scanO chO urls s).2.1.all Monitor.passiveAct = true
        ∧ Monitor.countInit (Monitor.cycleRun stop scanO chO urls s).2.1 = 0) := by
  refine ⟨fun n s h => Monitor.runCycles_initiated_mono stop scanO chO urls n s h,
    fun hstop n => ?_, fun s h => ?_⟩
  · subst hstop
    unfold Monitor.check_product_and_buy
    simp only
    rw [Monitor.countInit_append]
    have h0 : Monitor.countInit (Monitor.MAction.navigate 0 ::
        (if chO 0 then [Monitor.MAction.challengeHandled] else [])) = 0 := by
      by_cases h : chO 0 = true <;> simp [h, Monitor.countInit]
    rw [h0]
    simpa using Monitor.runCycles_stop_count scanO chO urls n ⟨false, 0, 0, 1⟩ rfl
  · obtain ⟨_, h2, _⟩ := Monitor.cycleRun_initiated stop scanO chO urls s h
    refine ⟨h2, ?_⟩
    unfold Monitor.countInit
    rw [List.length_eq_zero, List.filter_eq_nil_iff]
    intro a ha
    have := (List.all_eq_true).mp h2 a ha
    cases a <;> simp_all [Monitor.passiveAct]

/-- Witness for C2 at a concrete session (two URLs, every scan succeeds,
`stop_on_success` on, observed for three cycles, entered initiated). -/
theorem C2_session_invariants_witness :
    (Monitor.runCycles true (fun _ => true) (fun _ => false) 2 3
        ⟨true, 0, 0, 1⟩).1.initiated = true
    ∧ Monitor.countInit (Monitor.check_product_and_buy true (fun _ => true)
        (fun _ => false) 2 3).2.1 ≤ 1
    ∧ (Monitor.cycleRun true (fun _ => true) (fun _ => false) 2
        ⟨true, 0, 0, 1⟩).2.1.all Monitor.passiveAct = true := by
  obtain ⟨h1, h2, h3⟩ := C2_session_invariants true (fun _ => true) (fun _ => false) 2
  exact ⟨h1 3 ⟨true, 0, 0, 1⟩ rfl, h2 rfl 3, (h3 ⟨true, 0, 0, 1⟩ rfl).1⟩

/-- C2 counterexample to the claim as stated: in a two-URL session the cycle
after initiation does skip scanning, but it is not pure idling — it still
navigates between the monitored URLs. -/
theorem C2_counterexample :
    c2SecondCycle.all (fun a => !Monitor.isScanAct a) = true
    ∧ c2SecondCycle.all (fun a => decide (a = Monitor.MAction.idleSleep)) = false := by
  refine ⟨?_, ?_⟩ <;> decide

/-! ## C1: the purchase-path click characterization -/

namespace AiDetector

/-- A click whose `desc` is none of the six buy-path tags is never a
purchase-path click. -/
lemma okBuyClick_eq_false_of_ne (c : Click)
    (h1 : c.desc ≠ "inline_buy") (h2 : c.desc ≠ "near_buy")
    (h3 : c.desc ≠ "pdp_add_to_cart") (h4 : c.desc ≠ "global_buy")
    (h5 : c.desc ≠ "global_buy_any") (h6 : c.desc ≠ "global_buy_list") :
    okBuyClick c = false := by
  rcases c with ⟨n, ds, ok⟩
  simp only [okBuyClick] at *
  rw [beq_eq_false_iff_ne.mpr h1, beq_eq_false_iff_ne.mpr h2,
    beq_eq_false_iff_ne.mpr h3, beq_eq_false_iff_ne.mpr h4,
    beq_eq_false_iff_ne.mpr h5, beq_eq_false_iff_ne.mpr h6]
  cases ok <;> rfl

/-- A failed click is never a purchase-path click. -/
lemma okBuyClick_eq_false_of_fail (c : Click) (h : c.ok = false) :
    okBuyClick c = false := by
  rcases c with ⟨n, ds, ok⟩
  simp only at h
  simp [okBuyClick, h]

end AiDetector

/-- Appending to a string whose first character differs cannot produce the
target string. -/
lemma string_append_ne (pre t : String) (s : String)
    (hne : pre.data ≠ []) (h : pre.data.head? ≠ t.data.head?) : pre ++ s ≠ t := by
  intro heq
  have hd : (pre ++ s).data = pre.data ++ s.data := by
    cases pre; cases s; rfl
  have hdt : pre.data ++ s.data = t.data := by rw [← hd, heq]
  cases hpre : pre.data with
  | nil => exact hne hpre
  | cons c cs =>
    rw [hpre] at hdt
    apply h
    rw [hpre, ← hdt]
    rfl

namespace AiDetector

/-- Specialization to a click built by `mkClick` with a literal `desc`. -/
lemma okBuyClick_lit (n : Node) (ds : String)
    (h : (ds == "inline_buy" || ds == "near_buy" || ds == "pdp_add_to_cart"
      || ds == "global_buy" || ds == "global_buy_any"
      || ds == "global_buy_list") = false) :
    okBuyClick (mkClick n ds) = false := by
  simp only [okBuyClick, mkClick]
  rw [h]
  exact Bool.and_false _

lemma okBuyClick_select_desc (n : Node) (s : String) :
    okBuyClick (mkClick n ("select_size:" ++ s)) = false := by
  apply okBuyClick_lit
  rw [beq_eq_false_iff_ne.mpr
        (string_append_ne "select_size:" "inline_buy" s (by decide) (by decide)),
    beq_eq_false_iff_ne.mpr
        (string_append_ne "select_size:" "near_buy" s (by decide) (by decide)),
    beq_eq_false_iff_ne.mpr
        (string_append_ne "select_size:" "pdp_add_to_cart" s (by decide) (by decide)),
    beq_eq_false_iff_ne.mpr
        (string_append_ne "select_size:" "global_buy" s (by decide) (by decide)),
    beq_eq_false_iff_ne.mpr
        (string_append_ne "select_size:" "global_buy_any" s (by decide) (by decide)),
    beq_eq_false_iff_ne.mpr
        (string_append_ne "select_size:" "global_buy_list" s (by decide) (by decide))]
  rfl

lemma okBuyClick_aria_desc (n : Node) (s : String) :
    okBuyClick (mkClick n ("size_by_aria:" ++ s)) = false := by
  apply okBuyClick_lit
  rw [beq_eq_false_iff_ne.mpr
        (string_append_ne "size_by_aria:" "inline_buy" s (by decide) (by decide)),
    beq_eq_false_iff_ne.mpr
        (string_append_ne "size_by_aria:" "near_buy" s (by decide) (by decide)),
    beq_eq_false_iff_ne.mpr
        (string_append_ne "size_by_aria:" "pdp_add_to_cart" s (by decide) (by decide)),
    beq_eq_false_iff_ne.mpr
        (string_append_ne "size_by_aria:" "global_buy" s (by decide) (by decide)),
    beq_eq_false_iff_ne.mpr
        (string_append_ne "size_by_aria:" "global_buy_any" s (by decide) (by decide)),
    beq_eq_false_iff_ne.mpr
        (string_append_ne "size_by_aria:" "global_buy_list" s (by decide) (by decide))]
  rfl

lemma okBuyClick_dismiss_banner (n : Node) :
    okBuyClick (mkClick n "dismiss_banner") = false :=
  okBuyClick_lit n "dismiss_banner" (by decide)

lemma okBuyClick_dismiss_close (n : Node) :
    okBuyClick (mkClick n "dismiss_close") = false :=
  okBuyClick_lit n "dismiss_close" (by decide)

lemma okBuyClick_open_anchor (n : Node) :
    okBuyClick (mkClick n "open_pdp_anchor") = false :=
  okBuyClick_lit n "open_pdp_anchor" (by decide)

lemma okBuyClick_open_image (n : Node) :
    okBuyClick (mkClick n "open_pdp_image") = false :=
  okBuyClick_lit n "open_pdp_image" (by decide)

lemma okBuyClick_checkout (n : Node) :
    okBuyClick (mkClick n "checkout_transition") = false :=
  okBuyClick_lit n "checkout_transition" (by decide)

lemma noBuy_append (a b : List Click) :
    noBuy (a ++ b) = (noBuy a && noBuy b) := by
  unfold noBuy
  exact List.all_append

/-- A generic fold that only ever appends buy-free clicks keeps the log
buy-free. -/
lemma foldl_noBuy (step : Nat × List Click → Elem → Nat × List Click)
    (hstep : ∀ acc el, noBuy acc.2 = true → noBuy (step acc el).2 = true) :
    ∀ (l : List Elem) (acc : Nat × List Click), noBuy acc.2 = true →
      noBuy (l.foldl step acc).2 = true := by
  intro l
  induction l with
  | nil => intro acc h; exact h
  | cons e rest ih => intro acc h; exact ih (step acc e) (hstep acc e h)

lemma dismiss_banners_noBuy (d : Driver) (o : Option Settings) :
    noBuy (dismiss_banners d o).2 = true := by
  unfold dismiss_banners
  by_cases hoff : bannersOff o = true
  · simp only [hoff, if_pos]
    rfl
  · simp only [Bool.not_eq_true] at hoff
    rw [hoff]
    simp only [Bool.false_eq_true, if_false]
    refine foldl_noBuy _ ?_ _ _ (foldl_noBuy _ ?_ _ _ rfl)
    · intro acc el hacc
      dsimp only
      split
      · show noBuy (acc.2 ++ [mkClick el.node "dismiss_close"]) = true
        rw [noBuy_append, hacc]
        simp [noBuy, okBuyClick_dismiss_close]
      · exact hacc
    · intro acc el hacc
      dsimp only
      split
      · split
        · show noBuy (acc.2 ++ [mkClick el.node "dismiss_banner"]) = true
          rw [noBuy_append, hacc]
          simp [noBuy, okBuyClick_dismiss_banner]
        · exact hacc
      · exact hacc

lemma sizeMatchLoop_noBuy (token : String) :
    ∀ l : List Elem, noBuy (sizeMatchLoop token l).2 = true := by
  intro l
  induction l with
  | nil => rfl
  | cons c rest ih =>
    unfold sizeMatchLoop
    dsimp only
    split
    · split
      · split
        · simp [noBuy, okBuyClick_select_desc]
        · simp only [noBuy, List.all_cons]
          rw [Bool.and_eq_true]
          exact ⟨by simp [okBuyClick_select_desc], ih⟩
      · exact ih
    · exact ih

lemma ariaLoop_noBuy (token : String) :
    ∀ l : List Elem, noBuy (ariaLoop token l).2 = true := by
  intro l
  induction l with
  | nil => rfl
  | cons e rest ih =>
    unfold ariaLoop
    dsimp only
    split
    · split
      · simp [noBuy, okBuyClick_aria_desc]
      · simp only [noBuy, List.all_cons]
        rw [Bool.and_eq_true]
        exact ⟨by simp [okBuyClick_aria_desc], ih⟩
    · exact ih

lemma select_size_noBuy (d : Driver) (pref : Option String) :
    noBuy (select_size_on_pdp d pref).2 = true := by
  unfold select_size_on_pdp
  dsimp only
  split
  · rfl
  · split
    · exact sizeMatchLoop_noBuy _ _
    · rw [noBuy_append, sizeMatchLoop_noBuy, ariaLoop_noBuy]
      rfl

lemma open_pdp_noBuy (card : Elem) :
    noBuy (open_pdp_from_card card).2 = true := by
  unfold open_pdp_from_card
  dsimp only
  split
  · simp [noBuy, okBuyClick_open_anchor]
  · split
    · simp [noBuy, okBuyClick_open_image]
    · rfl

lemma checkoutLoop_noBuy :
    ∀ l : List Elem, noBuy (checkoutLoop l).2 = true := by
  intro l
  induction l with
  | nil => rfl
  | cons cta rest ih =>
    unfold checkoutLoop
    dsimp only
    split
    · exact ih
    · split
      · exact ih
      · split
        · split
          · simp [noBuy, okBuyClick_checkout]
          · simp only [noBuy, List.all_cons]
            rw [Bool.and_eq_true]
            exact ⟨by simp [okBuyClick_checkout], ih⟩
        · exact ih

lemma proceed_noBuy (d : Driver) (o : Option Settings) :
    noBuy (proceed_to_checkout d o).2 = true :=
  checkoutLoop_noBuy _

/-- `tryClickStep` at a buy-path call site: on success the log opens with a
purchase-path click; on failure the log holds only the failed attempt. -/
lemma tryClickStep_spec (d : Driver) (o : Option Settings) (cc : Bool)
    (F : List Click) (n : Node) (ds : String)
    (hds : (ds == "inline_buy" || ds == "near_buy" || ds == "pdp_add_to_cart"
        || ds == "global_buy" || ds == "global_buy_any"
        || ds == "global_buy_list") = true) :
    ((tryClickStep d o cc F n ds).1 = true →
      (tryClickStep d o cc F n ds).2.any okBuyClick = true)
    ∧ ((tryClickStep d o cc F n ds).1 = false →
      noBuy (tryClickStep d o cc F n ds).2 = true) := by
  unfold tryClickStep
  dsimp only
  by_cases hok : safe_click n = true
  · have hco : (mkClick n ds).ok = true := hok
    rw [if_pos hco]
    refine ⟨fun _ => ?_, fun hcontra => absurd hcontra (by simp)⟩
    rw [List.any_cons]
    have hbuy : okBuyClick (mkClick n ds) = true := by
      simp only [okBuyClick, mkClick]
      rw [hok, hds]
      rfl
    rw [hbuy]
    rfl
  · simp only [Bool.not_eq_true] at hok
    have hco : ¬((mkClick n ds).ok = true) := by
      show ¬(safe_click n = true)
      rw [hok]
      exact Bool.false_ne_true
    rw [if_neg hco]
    refine ⟨fun hcontra => absurd hcontra (by simp), fun _ => ?_⟩
    have : okBuyClick (mkClick n ds) = false :=
      okBuyClick_eq_false_of_fail _ hok
    simp [noBuy, this]

lemma attempt_global_spec (d : Driver) (pref : Option String) (s : Settings)
    (cc : Bool) (F : List Click) :
    ((attempt_global_buy_flow d pref s cc F).1 = true →
      (attempt_global_buy_flow d pref s cc F).2.any okBuyClick = true)
    ∧ ((attempt_global_buy_flow d pref s cc F).1 = false →
      noBuy (attempt_global_buy_flow d pref s cc F).2 = true) := by
  unfold attempt_global_buy_flow
  dsimp only
  have hsize : noBuy (if (s.select_size_before_global).getD true
      then (select_size_on_pdp d pref).2 else []) = true := by
    split
    · exact select_size_noBuy d pref
    · rfl
  cases hctas : find_global_buy_ctas d with
  | nil =>
    exact ⟨fun hcontra => absurd hcontra (by simp), fun _ => hsize⟩
  | cons btn rest =>
    obtain ⟨ht, hf⟩ := tryClickStep_spec d (some s) cc F btn.node "global_buy_any"
      (by decide)
    constructor
    · intro h1
      rw [List.any_append, ht h1]
      simp
    · intro h1
      rw [noBuy_append, hsize, hf h1]
      rfl

lemma matchedCardFlow_spec (d : Driver) (o : Option Settings)
    (pref : Option String) (cc : Bool) (F : List Click) (el : Elem) :
    ((matchedCardFlow d o pref cc F el).1 = true →
      (matchedCardFlow d o pref cc F el).2.any okBuyClick = true)
    ∧ ((matchedCardFlow d o pref cc F el).1 = false →
      noBuy (matchedCardFlow d o pref cc F el).2 = true) := by
  unfold matchedCardFlow
  dsimp only
  set inline := (match find_buy_button_in el with
    | some b => tryClickStep d o cc F b.node "inline_buy"
    | none => ((false : Bool), ([] : List Click))) with hinlineEq
  set near := (match find_buy_button_near el with
    | some b => tryClickStep d o cc F b.node "near_buy"
    | none => ((false : Bool), ([] : List Click))) with hnearEq
  set pdp := open_pdp_from_card el with hpdpEq
  set sz := select_size_on_pdp d pref with hszEq
  set inner := (match find_global_add_to_cart d with
    | some ab => tryClickStep d o cc F ab.node "pdp_add_to_cart"
    | none =>
      match find_global_buy_ctas d with
      | g :: _ => tryClickStep d o cc F g.node "global_buy"
      | [] => ((false : Bool), ([] : List Click))) with hinnerEq
  set lastr := (match find_global_buy_ctas d with
    | g :: _ => tryClickStep d o cc F g.node "global_buy_list"
    | [] => ((false : Bool), ([] : List Click))) with hlastEq
  have hinline : (inline.1 = true → inline.2.any okBuyClick = true)
      ∧ (inline.1 = false → noBuy inline.2 = true) := by
    rw [hinlineEq]
    cases find_buy_button_in el with
    | some b => exact tryClickStep_spec d o cc F b.node "inline_buy" (by decide)
    | none => exact ⟨fun hcontra => absurd hcontra (by simp), fun _ => rfl⟩
  have hnear : (near.1 = true → near.2.any okBuyClick = true)
      ∧ (near.1 = false → noBuy near.2 = true) := by
    rw [hnearEq]
    cases find_buy_button_near el with
    | some b => exact tryClickStep_spec d o cc F b.node "near_buy" (by decide)
    | none => exact ⟨fun hcontra => absurd hcontra (by simp), fun _ => rfl⟩
  have hinner : (inner.1 = true → inner.2.any okBuyClick = true)
      ∧ (inner.1 = false → noBuy inner.2 = true) := by
    rw [hinnerEq]
    cases find_global_add_to_cart d with
    | some ab => exact tryClickStep_spec d o cc F ab.node "pdp_add_to_cart" (by decide)
    | none =>
      cases find_global_buy_ctas d with
      | cons g rest => exact tryClickStep_spec d o cc F g.node "global_buy" (by decide)
      | nil => exact ⟨fun hcontra => absurd hcontra (by simp), fun _ => rfl⟩
  have hlast : (lastr.1 = true → lastr.2.any okBuyClick = true)
      ∧ (lastr.1 = false → noBuy lastr.2 = true) := by
    rw [hlastEq]
    cases find_global_buy_ctas d with
    | cons g rest => exact tryClickStep_spec d o cc F g.node "global_buy_list" (by decide)
    | nil => exact ⟨fun hcontra => absurd hcontra (by simp), fun _ => rfl⟩
  have hpdpN : noBuy pdp.2 = true := by rw [hpdpEq]; exact open_pdp_noBuy el
  have hszN : noBuy sz.2 = true := by rw [hszEq]; exact select_size_noBuy d pref
  by_cases h1 : inline.1 = true
  · rw [if_pos h1]
    exact ⟨fun _ => hinline.1 h1, fun hcontra => absurd h1 (by rw [hcontra]; simp)⟩
  · simp only [Bool.not_eq_true] at h1
    rw [if_neg (by rw [h1]; exact Bool.false_ne_true)]
    by_cases h2 : near.1 = true
    · rw [if_pos h2]
      refine ⟨fun _ => ?_, fun hcontra => absurd hcontra (by simp)⟩
      rw [List.any_append, hnear.1 h2]
      simp
    · simp only [Bool.not_eq_true] at h2
      rw [if_neg (by rw [h2]; exact Bool.false_ne_true)]
      by_cases h3 : pdp.1 = true
      · rw [if_pos h3]
        dsimp only
        by_cases h4 : inner.1 = true
        · rw [if_pos h4]
          refine ⟨fun _ => ?_, fun hcontra => absurd hcontra (by simp)⟩
          rw [List.any_append, List.any_append, List.any_append, List.any_append,
            hinner.1 h4]
          simp
        · simp only [Bool.not_eq_true] at h4
          rw [if_neg (by rw [h4]; exact Bool.false_ne_true)]
          constructor
          · intro h5
            have h5t : lastr.1 = true := h5
            show (inline.2 ++ near.2 ++ pdp.2 ++ (sz.2 ++ inner.2)
                ++ lastr.2).any okBuyClick = true
            rw [List.any_append, hlast.1 h5t]
            simp
          · intro h5
            have h5f : lastr.1 = false := h5
            show noBuy (inline.2 ++ near.2 ++ pdp.2 ++ (sz.2 ++ inner.2)
                ++ lastr.2) = true
            rw [noBuy_append, noBuy_append, noBuy_append, noBuy_append, noBuy_append]
            rw [hinline.2 h1, hnear.2 h2, hpdpN, hszN, hinner.2 h4, hlast.2 h5f]
            rfl
      · simp only [Bool.not_eq_true] at h3
        rw [if_neg (by rw [h3]; exact Bool.false_ne_true)]
        dsimp only
        constructor
        · intro h5
          rw [List.any_append, hlast.1 h5]
          simp
        · intro h5
          simp only [noBuy_append, Bool.and_eq_true]
          refine ⟨⟨⟨⟨hinline.2 h1, hnear.2 h2⟩, hpdpN⟩, ?_⟩, hlast.2 h5⟩
          split
          · next hcond =>
            rw [h3] at hcond
            exact absurd hcond Bool.false_ne_true
          · rfl

lemma buySpec_nil : BuySpec ((false : Bool), ([] : List Click)) :=
  ⟨fun hcontra => absurd hcontra (by simp), fun _ => rfl⟩

/-- The three-way branch shape shared by every `fpbLoop` pass. -/
lemma buySpec_branch (g m r : Bool × List Click)
    (hg : BuySpec g) (hm : BuySpec m) (hr : BuySpec r) :
    BuySpec (if g.1 then g
             else if m.1 then (true, g.2 ++ m.2)
             else (r.1, g.2 ++ m.2 ++ r.2)) := by
  by_cases h1 : g.1 = true
  · rw [if_pos h1]
    exact hg
  · simp only [Bool.not_eq_true] at h1
    rw [if_neg (by rw [h1]; exact Bool.false_ne_true)]
    by_cases h2 : m.1 = true
    · rw [if_pos h2]
      refine ⟨fun _ => ?_, fun hcontra => absurd hcontra (by simp)⟩
      show (g.2 ++ m.2).any okBuyClick = true
      rw [List.any_append, hm.1 h2]
      simp
    · simp only [Bool.not_eq_true] at h2
      rw [if_neg (by rw [h2]; exact Bool.false_ne_true)]
      constructor
      · intro h5
        show (g.2 ++ m.2 ++ r.2).any okBuyClick = true
        rw [List.any_append, hr.1 h5]
        simp
      · intro h5
        show noBuy (g.2 ++ m.2 ++ r.2) = true
        rw [noBuy_append, noBuy_append, hg.2 h1, hm.2 h2, hr.2 h5]
        rfl

lemma fpbLoop_spec (d : Driver) (product target : String) (pref : Option String)
    (o : Option Settings) (minScore : Frac) (cc : Bool) (F : List Click) :
    ∀ (fuel : Nat) (best : Frac) (bestM : Option (Elem × String)),
      BuySpec (fpbLoop d product target pref o minScore cc F fuel best bestM) := by
  intro fuel
  induction fuel with
  | zero => intro best bestM; exact buySpec_nil
  | succ n ih =>
    intro best bestM
    unfold fpbLoop
    dsimp only
    apply buySpec_branch
    · split
      · exact attempt_global_spec d pref (o.getD Settings.empty) cc F
      · exact buySpec_nil
    · split
      · split
        · exact matchedCardFlow_spec d o pref cc F _
        · exact buySpec_nil
      · exact buySpec_nil
    · exact ih _ _

lemma find_product_and_buy_spec (d : Driver) (product : String)
    (pref : Option String) (o : Option Settings) (cc : Bool) (F : List Click) :
    BuySpec (find_product_and_buy d product pref o cc F) := by
  unfold find_product_and_buy
  dsimp only
  constructor
  · intro h1
    have hr := (fpbLoop_spec d product (lowerS (trimS product)) pref o
      (getIfTruthy o (fun s => s.min_match_score) ⟨7, 10⟩) cc F
      (getIfTruthy o (fun s => s.max_scrolls) 3) ⟨0, 1⟩ none).1 h1
    show ((dismiss_banners d o).2
        ++ (fpbLoop d product (lowerS (trimS product)) pref o
            (getIfTruthy o (fun s => s.min_match_score) ⟨7, 10⟩) cc F
            (getIfTruthy o (fun s => s.max_scrolls) 3) ⟨0, 1⟩ none).2).any
        okBuyClick = true
    rw [List.any_append, hr]
    simp
  · intro h1
    have hr := (fpbLoop_spec d product (lowerS (trimS product)) pref o
      (getIfTruthy o (fun s => s.min_match_score) ⟨7, 10⟩) cc F
      (getIfTruthy o (fun s => s.max_scrolls) 3) ⟨0, 1⟩ none).2 h1
    show noBuy ((dismiss_banners d o).2
        ++ (fpbLoop d product (lowerS (trimS product)) pref o
            (getIfTruthy o (fun s => s.min_match_score) ⟨7, 10⟩) cc F
            (getIfTruthy o (fun s => s.max_scrolls) 3) ⟨0, 1⟩ none).2) = true
    rw [noBuy_append, dismiss_banners_noBuy, hr]
    rfl

lemma frac_lt_le_false (a b : Frac) (h : Frac.lt a b = true) :
    Frac.le b a = false := by
  unfold Frac.lt at h
  unfold Frac.le
  rw [decide_eq_true_eq] at h
  rw [decide_eq_false_iff_not]
  exact Nat.not_le.mpr h

/-- The best-match fold of a scan pass keeps the running best below
`min_match_score` (or no match at all) when every candidate scores below it. -/
lemma foldBelow (target : String) (minScore : Frac) :
    ∀ (cards : List (Elem × String)),
      (∀ c ∈ cards, Frac.lt (similar target c.2) minScore = true) →
      ∀ acc : Frac × Option (Elem × String),
        (acc.2 = none ∨ Frac.le minScore acc.1 = false) →
        ((cards.foldl
            (fun (acc : Frac × Option (Elem × String)) c =>
              if Frac.lt acc.1 (similar target c.2) then (similar target c.2, some c)
              else acc) acc).2 = none
          ∨ Frac.le minScore
              (cards.foldl
                (fun (acc : Frac × Option (Elem × String)) c =>
                  if Frac.lt acc.1 (similar target c.2) then (similar target c.2, some c)
                  else acc) acc).1 = false) := by
  intro cards
  induction cards with
  | nil => intro _ acc h; exact h
  | cons c rest ih =>
    intro hlow acc hInv
    rw [List.foldl_cons]
    apply ih (fun x hx => hlow x (List.mem_cons_of_mem _ hx))
    split
    · exact Or.inr (frac_lt_le_false _ _ (hlow c (List.mem_cons_self _ _)))
    · exact hInv

/-- The three-way branch of an `fpbLoop` pass collapses to `(false, [])` when
each arm does. -/
lemma fpbPass_shape (g m r : Bool × List Click)
    (hg : g = ((false : Bool), ([] : List Click)))
    (hm : m = ((false : Bool), ([] : List Click)))
    (hr : r = ((false : Bool), ([] : List Click))) :
    (if g.1 then g
     else if m.1 then (true, g.2 ++ m.2)
     else (r.1, g.2 ++ m.2 ++ r.2)) = (false, []) := by
  subst hg hm hr
  rfl

lemma fpbLoop_below (d : Driver) (product target : String) (pref : Option String)
    (o : Option Settings) (minScore : Frac) (cc : Bool) (F : List Click)
    (hany : getOrEmpty o (fun s => s.allow_global_cta_always) false = false)
    (hname : getOrEmpty o (fun s => s.allow_global_cta_when_name_found) true = false
        ∨ page_contains_target d product = false)
    (hlow : ∀ c ∈ extract_candidate_cards d 400,
        Frac.lt (similar target c.2) minScore = true) :
    ∀ (fuel : Nat) (best : Frac) (bestM : Option (Elem × String)),
      (bestM = none ∨ Frac.le minScore best = false) →
      fpbLoop d product target pref o minScore cc F fuel best bestM = (false, []) := by
  intro fuel
  induction fuel with
  | zero => intro best bestM _; rfl
  | succ n ih =>
    intro best bestM hInv
    unfold fpbLoop
    dsimp only
    set folded := (extract_candidate_cards d 400).foldl
      (fun (acc : Frac × Option (Elem × String)) c =>
        if Frac.lt acc.1 (similar target c.2) then (similar target c.2, some c)
        else acc) (best, bestM) with hfoldedEq
    have hfold := foldBelow target minScore (extract_candidate_cards d 400) hlow
      (best, bestM) hInv
    rw [← hfoldedEq] at hfold
    have hcond : (getOrEmpty o (fun s => s.allow_global_cta_always) false
        || (getOrEmpty o (fun s => s.allow_global_cta_when_name_found) true
            && page_contains_target d product)) = false := by
      rw [hany]
      rcases hname with h | h
      · rw [h]
        rfl
      · rw [h]
        simp
    refine fpbPass_shape _ _ _ ?_ ?_ ?_
    · rw [if_neg (by rw [hcond]; exact Bool.false_ne_true)]
    · rcases hM : folded.2 with _ | c
      · rfl
      · have hle : Frac.le minScore folded.1 = false := by
          rcases hfold with h | h
          · rw [hM] at h
            exact absurd h (by simp)
          · exact h
        dsimp only
        rw [if_neg (by rw [hle]; exact Bool.false_ne_true)]
    · exact ih folded.1 folded.2 hfold

/-- `dismiss_banners` is a silent no-op when the settings disable it. -/
lemma dismiss_banners_off (d : Driver) (o : Option Settings)
    (h : bannersOff o = true) : dismiss_banners d o = (0, []) := by
  unfold dismiss_banners
  rw [if_pos h]

end AiDetector

/-- C1 (amended): `find_product_and_buy` returns `True` exactly when a click
issued at one of its six purchase-path call sites (inline card CTA, nearby
CTA, PDP add-to-cart, PDP global CTA, gated global flow, last-resort global
CTA) actually succeeded; size-selection, banner-dismissal, PDP-opening and
checkout clicks never make it return `True`. -/
theorem C1_true_iff_buy_path_click (d : Driver) (product : String)
    (pref : Option String) (o : Option AiDetector.Settings) (cc : Bool)
    (F : List Click) :
    (AiDetector.find_product_and_buy d product pref o cc F).1 = true ↔
      (AiDetector.find_product_and_buy d product pref o cc F).2.any
        AiDetector.okBuyClick = true := by
  obtain ⟨h1, h2⟩ := AiDetector.find_product_and_buy_spec d product pref o cc F
  constructor
  · exact h1
  · intro hany
    cases hb : (AiDetector.find_product_and_buy d product pref o cc F).1 with
    | true => rfl
    | false =>
      have hnb := h2 hb
      rw [AiDetector.noBuy, List.all_eq_true] at hnb
      rw [List.any_eq_true] at hany
      obtain ⟨c, hc, hok⟩ := hany
      have := hnb c hc
      rw [hok] at this
      exact absurd this (by decide)

/-- C4 (amended): when banner dismissal is disabled, the global-CTA shortcut
is not enabled (`allow_global_cta_always` falsy and either
`allow_global_cta_when_name_found` falsy or the page does not contain the
target name), and every candidate card scores strictly below
`min_match_score`, `find_product_and_buy` clicks nothing and returns
`False`. -/
theorem C4_below_min_score_no_purchase (d : Driver) (product : String)
    (pref : Option String) (o : Option AiDetector.Settings) (cc : Bool)
    (F : List Click)
    (hban : AiDetector.bannersOff o = true)
    (hany : AiDetector.getOrEmpty o (fun s => s.allow_global_cta_always) false
      = false)
    (hname : AiDetector.getOrEmpty o
        (fun s => s.allow_global_cta_when_name_found) true = false
      ∨ AiDetector.page_contains_target d product = false)
    (hlow : ∀ c ∈ AiDetector.extract_candidate_cards d 400,
      Frac.lt (similar (lowerS (trimS product)) c.2)
        (AiDetector.getIfTruthy o (fun s => s.min_match_score) ⟨7, 10⟩) = true) :
    AiDetector.find_product_and_buy d product pref o cc F = (false, []) := by
  unfold AiDetector.find_product_and_buy
  dsimp only
  rw [AiDetector.fpbLoop_below d product (lowerS (trimS product)) pref o
    (AiDetector.getIfTruthy o (fun s => s.min_match_score) ⟨7, 10⟩) cc F
    hany hname hlow
    (AiDetector.getIfTruthy o (fun s => s.max_scrolls) 3) ⟨0, 1⟩ none (Or.inl rfl)]
  rw [AiDetector.dismiss_banners_off d o hban]
  rfl

namespace Difflib

/-! ## Reflexivity of `ratio`

With `a = b` the dynamic program of `find_longest_match` only ever promotes
diagonal matches, and the extension loops then stretch any diagonal match to
the full diagonal `(0, 0, n)`.  The autojunk purge is char-based, so the
visibility of a column transfers along equal characters, which is what keeps
off-diagonal runs from ever beating the diagonal. -/

lemma mem_posns (l : List Char) (c : Char) (j : Nat) (h : j ∈ posns l c) :
    j < l.length ∧ l.getD j ' ' = c := by
  unfold posns at h
  have h2 := List.mem_filter.mp h
  exact ⟨List.mem_range.mp h2.1, eq_of_beq h2.2⟩

lemma self_mem_posns (l : List Char) (i : Nat) (hi : i < l.length) :
    i ∈ posns l (l.getD i ' ') := by
  unfold posns
  exact List.mem_filter.mpr ⟨List.mem_range.mpr hi, beq_self_eq_true _⟩

lemma mem_b2j (l : List Char) (c : Char) (j : Nat) (h : j ∈ b2j l c) :
    j ∈ posns l c := by
  unfold b2j at h
  split at h
  · exact absurd h (List.not_mem_nil j)
  · exact h

lemma b2j_eq_of_mem (l : List Char) (c : Char) (j : Nat) (h : j ∈ b2j l c) :
    b2j l c = posns l c := by
  unfold b2j at h ⊢
  split at h
  · exact absurd h (List.not_mem_nil j)
  · next hcond => rw [if_neg hcond]

lemma colsOf_eq (l : List Char) (i : Nat) :
    colsOf l i = b2j l (l.getD i ' ') := by
  unfold colsOf
  rw [List.filter_eq_self.mpr (fun a _ => by simp)]
  exact List.takeWhile_eq_self_iff.mpr
    (fun x hx => decide_eq_true (mem_posns l _ x (mem_b2j l _ x hx)).1)

lemma mem_colsOf_lt (l : List Char) (i j : Nat) (h : j ∈ colsOf l i) :
    j < l.length := by
  rw [colsOf_eq] at h
  exact (mem_posns l _ j (mem_b2j l _ j h)).1

lemma mem_colsOf_char (l : List Char) (i j : Nat) (h : j ∈ colsOf l i) :
    l.getD j ' ' = l.getD i ' ' := by
  rw [colsOf_eq] at h
  exact (mem_posns l _ j (mem_b2j l _ j h)).2

lemma colsOf_congr (l : List Char) (i j : Nat) (h : j ∈ colsOf l i) :
    colsOf l j = colsOf l i := by
  rw [colsOf_eq, colsOf_eq, mem_colsOf_char l i j h]

lemma self_mem_colsOf (l : List Char) (i j : Nat) (h : j ∈ colsOf l i)
    (hi : i < l.length) : i ∈ colsOf l i := by
  rw [colsOf_eq] at h ⊢
  rw [b2j_eq_of_mem l _ j h]
  exact self_mem_posns l i hi

lemma colsOf_sorted (l : List Char) (i : Nat) :
    (colsOf l i).Pairwise (· < ·) := by
  rw [colsOf_eq]
  unfold b2j
  split
  · exact List.Pairwise.nil
  · unfold posns
    exact (List.pairwise_lt_range _).filter _

lemma vis_of_mem (l : List Char) (r j : Nat) (h : j ∈ colsOf l r) :
    vis l r j = (if j = 0 then 0 else visRow l r (j - 1)) + 1 := by
  cases r with
  | zero =>
    show (if j ∈ colsOf l 0 then 1 else 0) = _
    rw [if_pos h]
    split <;> rfl
  | succ r' =>
    show (if j ∈ colsOf l (r'+1) then (if j = 0 then 0 else vis l r' (j - 1)) + 1 else 0) = _
    rw [if_pos h]
    rfl

lemma vis_of_not_mem (l : List Char) (r j : Nat) (h : j ∉ colsOf l r) :
    vis l r j = 0 := by
  cases r with
  | zero =>
    show (if j ∈ colsOf l 0 then 1 else 0) = 0
    rw [if_neg h]
  | succ r' =>
    show (if j ∈ colsOf l (r'+1) then (if j = 0 then 0 else vis l r' (j - 1)) + 1 else 0) = 0
    rw [if_neg h]

lemma vis_le_row (l : List Char) : ∀ i j, vis l i j ≤ i + 1 := by
  intro i
  induction i with
  | zero =>
    intro j
    show (if j ∈ colsOf l 0 then 1 else 0) ≤ 1
    split <;> omega
  | succ i ih =>
    intro j
    show (if j ∈ colsOf l (i+1) then (if j = 0 then 0 else vis l i (j - 1)) + 1 else 0) ≤ i + 2
    split
    · split
      · omega
      · have := ih (j - 1)
        omega
    · omega

lemma vis_le_diag (l : List Char) : ∀ i, i < l.length → ∀ j, vis l i j ≤ vis l i i := by
  intro i
  induction i with
  | zero =>
    intro hlen j
    by_cases h : j ∈ colsOf l 0
    · have h0 : 0 ∈ colsOf l 0 := self_mem_colsOf l 0 j h hlen
      rw [vis_of_mem l 0 j h, vis_of_mem l 0 0 h0]
      have hv : visRow l 0 (j - 1) = 0 := rfl
      split <;> omega
    · rw [vis_of_not_mem l 0 j h]
      exact Nat.zero_le _
  | succ i ih =>
    intro hlen j
    by_cases h : j ∈ colsOf l (i+1)
    · have hself : (i+1) ∈ colsOf l (i+1) := self_mem_colsOf l (i+1) j h hlen
      rw [vis_of_mem l (i+1) j h, vis_of_mem l (i+1) (i+1) hself]
      rw [if_neg (Nat.succ_ne_zero i)]
      have h2 : visRow l (i+1) (i + 1 - 1) = vis l i i := rfl
      split
      · omega
      · have h1 : visRow l (i+1) (j - 1) = vis l i (j - 1) := rfl
        have h3 := ih (by omega) (j - 1)
        omega
    · rw [vis_of_not_mem l (i+1) j h]
      exact Nat.zero_le _

lemma vis_le_prior_diag (l : List Char) : ∀ i j, j < i → vis l i j ≤ vis l j j := by
  intro i
  induction i with
  | zero => intro j hj; exact absurd hj (Nat.not_lt_zero j)
  | succ i ih =>
    intro j hj
    by_cases h : j ∈ colsOf l (i+1)
    · have hjj : j ∈ colsOf l j := by
        rw [colsOf_congr l (i+1) j h]
        exact h
      rw [vis_of_mem l (i+1) j h, vis_of_mem l j j hjj]
      by_cases hj0 : j = 0
      · rw [if_pos hj0, if_pos hj0]
      · rw [if_neg hj0, if_neg hj0]
        cases j with
        | zero => exact absurd rfl hj0
        | succ j' =>
          have h1 : visRow l (i+1) (j' + 1 - 1) = vis l i j' := rfl
          have h2 : visRow l (j'+1) (j' + 1 - 1) = vis l j' j' := rfl
          have h3 : vis l i j' ≤ vis l j' j' := ih j' (by omega)
          omega
    · rw [vis_of_not_mem l (i+1) j h]
      exact Nat.zero_le _

lemma flmCols_inv (l : List Char) (r : Nat) (oldj : Nat → Nat)
    (hr : r < l.length)
    (holdj : ∀ x, oldj x = visRow l r x) :
    ∀ (cs : List Nat) (best : Match3) (nj : Nat → Nat),
      (∀ j ∈ cs, j ∈ colsOf l r) →
      cs.Pairwise (· < ·) →
      best.i = best.j →
      best.i + best.size ≤ l.length →
      (∀ j', j' < r → vis l j' j' ≤ best.size) →
      (r ∉ cs → vis l r r ≤ best.size) →
      (∀ x, x ∉ cs → nj x = vis l r x) →
      (flmCols r oldj cs best nj).1.i = (flmCols r oldj cs best nj).1.j
      ∧ (flmCols r oldj cs best nj).1.i + (flmCols r oldj cs best nj).1.size ≤ l.length
      ∧ (∀ j', j' < r → vis l j' j' ≤ (flmCols r oldj cs best nj).1.size)
      ∧ vis l r r ≤ (flmCols r oldj cs best nj).1.size
      ∧ (∀ x, (flmCols r oldj cs best nj).2 x = vis l r x) := by
  intro cs
  induction cs with
  | nil =>
    intro best nj _ _ hdiag hbound hprev hcur hnj
    exact ⟨hdiag, hbound, hprev, hcur (List.not_mem_nil r),
      fun x => hnj x (List.not_mem_nil x)⟩
  | cons j rest ih =>
    intro best nj hsub hpw hdiag hbound hprev hcur hnj
    have hjmem : j ∈ colsOf l r := hsub j (List.mem_cons_self j rest)
    have hstep : flmCols r oldj (j :: rest) best nj
        = flmCols r oldj rest
            (if best.size < (if j = 0 then 0 else oldj (j - 1)) + 1
             then ⟨r + 1 - ((if j = 0 then 0 else oldj (j - 1)) + 1),
                   j + 1 - ((if j = 0 then 0 else oldj (j - 1)) + 1),
                   (if j = 0 then 0 else oldj (j - 1)) + 1⟩
             else best)
            (fun x => if x = j then (if j = 0 then 0 else oldj (j - 1)) + 1 else nj x) := rfl
    have hk : (if j = 0 then 0 else oldj (j - 1)) + 1 = vis l r j := by
      rw [vis_of_mem l r j hjmem]
      by_cases hj0 : j = 0
      · rw [if_pos hj0, if_pos hj0]
      · rw [if_neg hj0, if_neg hj0, holdj (j - 1)]
    rw [hstep, hk]
    have hsub' : ∀ x ∈ rest, x ∈ colsOf l r :=
      fun x hx => hsub x (List.mem_cons_of_mem j hx)
    have hpw' := (List.pairwise_cons.mp hpw).2
    have hgt : ∀ y ∈ rest, j < y := (List.pairwise_cons.mp hpw).1
    have hnj' : ∀ x, x ∉ rest →
        (fun x => if x = j then vis l r j else nj x) x = vis l r x := by
      intro x hx
      by_cases hxj : x = j
      · show (if x = j then vis l r j else nj x) = vis l r x
        rw [if_pos hxj, hxj]
      · show (if x = j then vis l r j else nj x) = vis l r x
        rw [if_neg hxj]
        exact hnj x (fun hmem => (List.mem_cons.mp hmem).elim hxj hx)
    rcases Nat.lt_or_ge best.size (vis l r j) with hup | hnup
    · have hjr : j = r := by
        rcases Nat.lt_trichotomy j r with hlt | heq | hgt2
        · exfalso
          have h1 := vis_le_prior_diag l r j hlt
          have h2 := hprev j hlt
          omega
        · exact heq
        · exfalso
          have h1 := vis_le_diag l r hr j
          have h2 : r ∉ j :: rest := by
            intro hmem
            rcases List.mem_cons.mp hmem with h | h
            · omega
            · have := hgt r h
              omega
          have h3 := hcur h2
          omega
      rw [hjr] at hup hnj' ⊢
      rw [if_pos hup]
      refine ih _ _ hsub' hpw' rfl ?_ ?_ ?_ hnj'
      · show r + 1 - vis l r r + vis l r r ≤ l.length
        have := vis_le_row l r r
        omega
      · intro j' hj'
        have := hprev j' hj'
        show vis l j' j' ≤ vis l r r
        omega
      · intro _
        show vis l r r ≤ vis l r r
        exact Nat.le_refl _
    · rw [if_neg (Nat.not_lt.mpr hnup)]
      refine ih _ _ hsub' hpw' hdiag hbound hprev ?_ hnj'
      intro hrrest
      by_cases hjr : j = r
      · rw [hjr] at hnup
        exact hnup
      · exact hcur (fun hmem => (List.mem_cons.mp hmem).elim (fun he => hjr he.symm) hrrest)

lemma flmRows_inv (l : List Char) :
    ∀ (k r : Nat), r + k = l.length →
    ∀ (best : Match3) (j2len : Nat → Nat),
      best.i = best.j →
      best.i + best.size ≤ l.length →
      (∀ j', j' < r → vis l j' j' ≤ best.size) →
      (∀ x, j2len x = visRow l r x) →
      (flmRows l (b2j l) 0 l.length (List.range' r k) best j2len).1.i
        = (flmRows l (b2j l) 0 l.length (List.range' r k) best j2len).1.j
      ∧ (flmRows l (b2j l) 0 l.length (List.range' r k) best j2len).1.i
          + (flmRows l (b2j l) 0 l.length (List.range' r k) best j2len).1.size ≤ l.length := by
  intro k
  induction k with
  | zero =>
    intro r _ best j2len hdiag hbound _ _
    exact ⟨hdiag, hbound⟩
  | succ k ih =>
    intro r hrk best j2len hdiag hbound hprev hj2len
    rw [List.range'_succ]
    have hr : r < l.length := by omega
    have hstep : flmRows l (b2j l) 0 l.length (r :: List.range' (r + 1) k) best j2len
        = flmRows l (b2j l) 0 l.length (List.range' (r + 1) k)
            (flmCols r j2len (colsOf l r) best (fun _ => 0)).1
            (flmCols r j2len (colsOf l r) best (fun _ => 0)).2 := rfl
    rw [hstep]
    obtain ⟨h1, h2, h3, h4, h5⟩ := flmCols_inv l r j2len hr hj2len (colsOf l r) best
      (fun _ => 0) (fun j hj => hj) (colsOf_sorted l r) hdiag hbound hprev
      (fun hnm => by rw [vis_of_not_mem l r r hnm]; exact Nat.zero_le _)
      (fun x hx => (vis_of_not_mem l r x hx).symm)
    exact ih (r + 1) (by omega)
      (flmCols r j2len (colsOf l r) best (fun _ => 0)).1
      (flmCols r j2len (colsOf l r) best (fun _ => 0)).2
      h1 h2
      (fun j' hj' => by
        rcases Nat.lt_or_ge j' r with h | h
        · exact h3 j' h
        · have hje : j' = r := by omega
          rw [hje]
          exact h4)
      (fun x => h5 x)

lemma extBack_diag (l : List Char) : ∀ (fuel : Nat) (m : Match3),
    m.i = m.j → m.i ≤ fuel →
    extBack l l (fun _ => false) 0 0 false fuel m = ⟨0, 0, m.i + m.size⟩ := by
  intro fuel
  induction fuel with
  | zero =>
    intro m hdiag hfuel
    have hm : m = ⟨m.i, m.j, m.size⟩ := rfl
    show m = _
    rw [hm]
    simp only [Match3.mk.injEq]
    refine ⟨by omega, by omega, by omega⟩
  | succ fuel ih =>
    intro m hdiag hfuel
    have hstep : extBack l l (fun _ => false) 0 0 false (fuel + 1) m
        = if (decide (0 < m.i) && decide (0 < m.j)
             && ((fun _ => false) (l.getD (m.j - 1) ' ') == false)
             && (l.getD (m.i - 1) ' ' == l.getD (m.j - 1) ' ')) = true
          then extBack l l (fun _ => false) 0 0 false fuel ⟨m.i - 1, m.j - 1, m.size + 1⟩
          else m := rfl
    by_cases hi : 0 < m.i
    · have hcond : (decide (0 < m.i) && decide (0 < m.j)
          && ((fun _ => false) (l.getD (m.j - 1) ' ') == false)
          && (l.getD (m.i - 1) ' ' == l.getD (m.j - 1) ' ')) = true := by
        rw [← hdiag]
        simp [hi]
      rw [hstep, if_pos hcond]
      rw [ih ⟨m.i - 1, m.j - 1, m.size + 1⟩ (by show m.i - 1 = m.j - 1; rw [hdiag])
        (by show m.i - 1 ≤ fuel; omega)]
      simp only [Match3.mk.injEq]
      refine ⟨by trivial, by trivial, by omega⟩
    · have hcond : ¬((decide (0 < m.i) && decide (0 < m.j)
          && ((fun _ => false) (l.getD (m.j - 1) ' ') == false)
          && (l.getD (m.i - 1) ' ' == l.getD (m.j - 1) ' ')) = true) := by
        simp [hi]
      rw [hstep, if_neg hcond]
      have hm : m = ⟨m.i, m.j, m.size⟩ := rfl
      rw [hm]
      simp only [Match3.mk.injEq]
      refine ⟨by omega, by omega, by omega⟩

lemma extFwd_diag (l : List Char) : ∀ (fuel : Nat) (m : Match3),
    m.i = m.j → l.length ≤ m.i + m.size + fuel → m.i + m.size ≤ l.length →
    extFwd l l (fun _ => false) l.length l.length false fuel m
      = ⟨m.i, m.j, l.length - m.i⟩ := by
  intro fuel
  induction fuel with
  | zero =>
    intro m hdiag hfuel hbound
    have hm : m = ⟨m.i, m.j, m.size⟩ := rfl
    show m = _
    rw [hm]
    simp only [Match3.mk.injEq]
    refine ⟨by trivial, by trivial, by omega⟩
  | succ fuel ih =>
    intro m hdiag hfuel hbound
    have hstep : extFwd l l (fun _ => false) l.length l.length false (fuel + 1) m
        = if (decide (m.i + m.size < l.length) && decide (m.j + m.size < l.length)
             && ((fun _ => false) (l.getD (m.j + m.size) ' ') == false)
             && (l.getD (m.i + m.size) ' ' == l.getD (m.j + m.size) ' ')) = true
          then extFwd l l (fun _ => false) l.length l.length false fuel ⟨m.i, m.j, m.size + 1⟩
          else m := rfl
    by_cases h : m.i + m.size < l.length
    · have hcond : (decide (m.i + m.size < l.length) && decide (m.j + m.size < l.length)
          && ((fun _ => false) (l.getD (m.j + m.size) ' ') == false)
          && (l.getD (m.i + m.size) ' ' == l.getD (m.j + m.size) ' ')) = true := by
        rw [← hdiag]
        simp [h]
      rw [hstep, if_pos hcond]
      rw [ih ⟨m.i, m.j, m.size + 1⟩ hdiag (by show l.length ≤ m.i + (m.size + 1) + fuel; omega)
        (by show m.i + (m.size + 1) ≤ l.length; omega)]
    · have hcond : ¬((decide (m.i + m.size < l.length) && decide (m.j + m.size < l.length)
          && ((fun _ => false) (l.getD (m.j + m.size) ' ') == false)
          && (l.getD (m.i + m.size) ' ' == l.getD (m.j + m.size) ' ')) = true) := by
        simp [h]
      rw [hstep, if_neg hcond]
      have hm : m = ⟨m.i, m.j, m.size⟩ := rfl
      rw [hm]
      simp only [Match3.mk.injEq]
      refine ⟨by trivial, by trivial, by omega⟩

lemma extBack_junk (l : List Char) (fuel : Nat) (m : Match3) :
    extBack l l (fun _ => false) 0 0 true fuel m = m := by
  cases fuel with
  | zero => rfl
  | succ f =>
    have hstep : extBack l l (fun _ => false) 0 0 true (f + 1) m
        = if (decide (0 < m.i) && decide (0 < m.j)
             && ((fun _ => false) (l.getD (m.j - 1) ' ') == true)
             && (l.getD (m.i - 1) ' ' == l.getD (m.j - 1) ' ')) = true
          then extBack l l (fun _ => false) 0 0 true f ⟨m.i - 1, m.j - 1, m.size + 1⟩
          else m := rfl
    rw [hstep, if_neg (by simp)]

lemma extFwd_junk (l : List Char) (fuel : Nat) (m : Match3) :
    extFwd l l (fun _ => false) l.length l.length true fuel m = m := by
  cases fuel with
  | zero => rfl
  | succ f =>
    have hstep : extFwd l l (fun _ => false) l.length l.length true (f + 1) m
        = if (decide (m.i + m.size < l.length) && decide (m.j + m.size < l.length)
             && ((fun _ => false) (l.getD (m.j + m.size) ' ') == true)
             && (l.getD (m.i + m.size) ' ' == l.getD (m.j + m.size) ' ')) = true
          then extFwd l l (fun _ => false) l.length l.length true f ⟨m.i, m.j, m.size + 1⟩
          else m := rfl
    rw [hstep, if_neg (by simp)]

/-- `find_longest_match` over the full self-comparison region returns the
whole diagonal. -/
lemma flm_self (l : List Char) :
    findLongestMatch l l (b2j l) (fun _ => false) 0 l.length 0 l.length
      = ⟨0, 0, l.length⟩ := by
  unfold findLongestMatch
  dsimp only
  set st := flmRows l (b2j l) 0 l.length (List.range' 0 (l.length - 0)) ⟨0, 0, 0⟩
    (fun _ => 0) with hstEq
  obtain ⟨h1, h2⟩ := flmRows_inv l l.length 0 (by omega) ⟨0, 0, 0⟩ (fun _ => 0) rfl
    (by show 0 + 0 ≤ l.length; omega)
    (fun j' hj' => absurd hj' (Nat.not_lt_zero j'))
    (fun x => rfl)
  have h1' : st.1.i = st.1.j := h1
  have h2' : st.1.i + st.1.size ≤ l.length := h2
  rw [extBack_diag l (l.length + l.length + 1) st.1 h1' (by omega)]
  rw [extFwd_diag l (l.length + l.length + 1) ⟨0, 0, st.1.i + st.1.size⟩ rfl
    (by show l.length ≤ 0 + (st.1.i + st.1.size) + (l.length + l.length + 1); omega)
    (by show 0 + (st.1.i + st.1.size) ≤ l.length; omega)]
  rw [extBack_junk, extFwd_junk]
  rfl

lemma gmbLoop_succ_nil (a b : List Char) (b2jf : Char → List Nat)
    (isbjunk : Char → Bool) (fuel : Nat) (acc : List Match3) :
    gmbLoop a b b2jf isbjunk (fuel + 1) [] acc = acc := rfl

lemma gmbLoop_succ_cons (a b : List Char) (b2jf : Char → List Nat)
    (isbjunk : Char → Bool) (fuel alo ahi blo bhi : Nat)
    (rest : List (Nat × Nat × Nat × Nat)) (acc : List Match3)
    (m : Match3) (hm : findLongestMatch a b b2jf isbjunk alo ahi blo bhi = m) :
    gmbLoop a b b2jf isbjunk (fuel + 1) ((alo, ahi, blo, bhi) :: rest) acc
      = (if m.size ≠ 0 then
           gmbLoop a b b2jf isbjunk fuel
             (if m.i + m.size < ahi && m.j + m.size < bhi
              then (m.i + m.size, ahi, m.j + m.size, bhi)
                  :: (if alo < m.i && blo < m.j then (alo, m.i, blo, m.j) :: rest else rest)
              else (if alo < m.i && blo < m.j then (alo, m.i, blo, m.j) :: rest else rest))
             (m :: acc)
         else gmbLoop a b b2jf isbjunk fuel rest acc) := by
  subst hm
  rfl

/-- `get_matching_blocks` on a non-empty self-comparison: one full-diagonal
block plus the sentinel. -/
lemma gmb_self (l : List Char) (hn : l.length ≠ 0) :
    getMatchingBlocks l l = [⟨0, 0, l.length⟩, ⟨l.length, l.length, 0⟩] := by
  have h1 : gmbLoop l l (b2j l) (fun _ => false) (2 * (l.length + l.length) + 4)
      [(0, l.length, 0, l.length)] [] = [⟨0, 0, l.length⟩] := by
    show gmbLoop l l (b2j l) (fun _ => false) (2 * (l.length + l.length) + 3 + 1)
      [(0, l.length, 0, l.length)] [] = [⟨0, 0, l.length⟩]
    rw [gmbLoop_succ_cons l l (b2j l) (fun _ => false) (2 * (l.length + l.length) + 3)
      0 l.length 0 l.length [] [] ⟨0, 0, l.length⟩ (flm_self l)]
    rw [if_pos hn]
    rw [if_neg (by simp)]
    rw [if_neg (by simp)]
    show gmbLoop l l (b2j l) (fun _ => false) (2 * (l.length + l.length) + 2 + 1)
      [] [⟨0, 0, l.length⟩] = [⟨0, 0, l.length⟩]
    exact gmbLoop_succ_nil l l (b2j l) (fun _ => false) _ _
  unfold getMatchingBlocks
  dsimp only
  rw [h1]
  have hsort : sortM [(⟨0, 0, l.length⟩ : Match3)] = [⟨0, 0, l.length⟩] := rfl
  rw [hsort]
  have hmerge : mergeAdj ⟨0, 0, 0⟩ [(⟨0, 0, l.length⟩ : Match3)] = [⟨0, 0, l.length⟩] := by
    show (if 0 + l.length ≠ 0 then [(⟨0, 0, 0 + l.length⟩ : Match3)] else []) = _
    rw [if_pos (by omega : 0 + l.length ≠ 0)]
    rw [Nat.zero_add]
  rw [hmerge]
  rfl

/-- `SequenceMatcher.ratio()` of any sequence against itself equals 1. -/
lemma ratio_self (l : List Char) : Frac.valEq (ratioQ l l) ⟨1, 1⟩ = true := by
  by_cases hn : l.length = 0
  · unfold ratioQ
    dsimp only
    rw [if_neg (by omega)]
    rfl
  · unfold ratioQ
    dsimp only
    rw [gmb_self l hn]
    rw [if_pos (by omega)]
    simp only [Frac.valEq, List.map_cons, List.map_nil, List.sum_cons, List.sum_nil,
      beq_iff_eq]
    omega

end Difflib

/-- C5 (amended): `similar` is reflexive with score exactly 1: for every
string `s`, `similar(s, s) == 1.0` (for all lengths, including the autojunk
regime of 200 characters or more).  Symmetry, by contrast, fails
(`C5_symmetry_counterexample`). -/
theorem C5_reflexivity (s : String) :
    Frac.valEq (similar s s) ⟨1, 1⟩ = true := by
  unfold similar
  exact Difflib.ratio_self (lowerL s.data)

theorem C4_below_min_score_no_purchase_witness :
    AiDetector.bannersOff (some c4SettingsNoGlobal) = true
    ∧ AiDetector.getOrEmpty (some c4SettingsNoGlobal)
        (fun s => s.allow_global_cta_when_name_found) true = false
    ∧ (∀ c ∈ AiDetector.extract_candidate_cards c4Driver 400,
        Frac.lt (similar (lowerS (trimS "widget")) c.2)
          (AiDetector.getIfTruthy (some c4SettingsNoGlobal)
            (fun s => s.min_match_score) ⟨7, 10⟩) = true)
    ∧ AiDetector.find_product_and_buy c4Driver "widget" none
        (some c4SettingsNoGlobal) false [] = (false, []) :=
  ⟨by decide, by decide, by decide,
    C4_below_min_score_no_purchase c4Driver "widget" none
      (some c4SettingsNoGlobal) false [] (by decide) (by decide)
      (Or.inl (by decide)) (by decide)⟩
